import Mathlib

/-!
# Trend analytics of hashtag-analyzer

A shallow embedding of the helper functions of `server/routes/analytics.js`
(`calculateTrendMetrics`, `generatePredictions`, `calculateGrowthRate`), of the
windows and rankings its handlers build, of `updateTrendingScore` and the part
of the schema of `server/models/Hashtag.js` these read, and of the scoring,
storing and comparing done in `server/routes/socialMedia.js`.

Conventions of the embedding:

* JavaScript numbers are exact rationals (`ℚ`): the arithmetic of the source is
  kept operation by operation, IEEE-754 rounding error is not modelled.
* `Math.round` is `jsRound` (nearest integer, ties towards `+∞`).
* `Math.sqrt` is not a rational function; `calculateTrendMetrics` takes it as the
  parameter `sqrt`, and everything proved about it holds for every choice.
* `mentions` and `engagement` of an observation are counts (`ℕ`), as produced by
  the ingestion services.
* `Array.prototype.sort` is a stable sort (`jsSort`), `Date.now()` is one value
  `now` for a whole request.
* The store is Mongoose: `findOneAndUpdate` with an update document without
  operators sets each key of that document.
* `undefined` and `null` are `none`.
-/

namespace HashtagAnalyzer

/-! ## Data model -/

/-- One element of `time_series` in `models/Hashtag.js`; `timestamp` is the
`Date` as milliseconds since the epoch. -/
structure Observation where
  timestamp : Int
  mentions : Nat
  engagement : Nat
  sentiment_score : ℚ
deriving DecidableEq, Repr

/-- The object returned by `calculateTrendMetrics`. The early return of the
source has no `totalMentions` / `totalEngagement` keys, hence the options. -/
structure TrendMetrics where
  trend : String
  growthRate : ℚ
  volatility : ℚ
  peak : ℚ
  average : ℚ
  totalMentions : Option ℚ
  totalEngagement : Option ℚ
deriving DecidableEq, Repr

/-- One horizon of the object returned by `generatePredictions`. -/
structure Horizon where
  mentions_prediction : Int
  confidence : ℚ
deriving DecidableEq, Repr

/-- The object returned by `generatePredictions`. -/
structure Predictions where
  next_24h : Horizon
  next_week : Horizon
deriving DecidableEq, Repr

/-! ## JavaScript primitives -/

/-- `Math.round(x)`: the nearest integer, halves rounded up. -/
def jsRound (x : ℚ) : Int := ⌊x + 1 / 2⌋

/-- The idiom `Math.round(x * 100) / 100` of the source. -/
def round2 (x : ℚ) : ℚ := (jsRound (x * 100) : ℚ) / 100

/-- `xs.reduce((sum, val) => sum + val, 0)`. -/
def sumReduce (xs : List ℚ) : ℚ := xs.foldl (fun sum val => sum + val) 0

/-- `Math.max(...xs)` for a non-empty argument list. The empty case (JavaScript
gives `-Infinity`) is never reached behind the length guard of the caller. -/
def mathMax : List ℚ → ℚ
  | [] => 0
  | x :: xs => xs.foldl max x

/-- `xs.slice(-k)`: the last `k` elements, or all of them when there are fewer. -/
def sliceLast (k : Nat) (xs : List ℚ) : List ℚ := xs.drop (xs.length - k)

/-! ## `calculateTrendMetrics` -/

/-- `timeSeriesData.map((entry) => entry.mentions)`. -/
def mentionsOf (timeSeriesData : List Observation) : List ℚ :=
  timeSeriesData.map (fun entry => (entry.mentions : ℚ))

/-- `timeSeriesData.map((entry) => entry.engagement)`. -/
def engagementsOf (timeSeriesData : List Observation) : List ℚ :=
  timeSeriesData.map (fun entry => (entry.engagement : ℚ))

/-- The local `growthRate` of `calculateTrendMetrics` (before rounding), from
the list `mentions`. -/
def rawGrowthRate (mentions : List ℚ) : ℚ :=
  let firstMentions := mentions.getD 0 0
  let lastMentions := mentions.getD (mentions.length - 1) 0
  if firstMentions > 0 then ((lastMentions - firstMentions) / firstMentions) * 100
  else 0

/-- The local `mean` of `calculateTrendMetrics`. -/
def meanOf (mentions : List ℚ) : ℚ := sumReduce mentions / mentions.length

/-- The local `variance` of `calculateTrendMetrics`. -/
def varianceOf (mentions : List ℚ) : ℚ :=
  mentions.foldl (fun sum val => sum + (val - meanOf mentions) ^ 2) 0 / mentions.length

/-- The local `trend` of `calculateTrendMetrics`, from the unrounded growth rate. -/
def classifyTrend (growthRate : ℚ) : String :=
  if growthRate > 10 then "rising"
  else if growthRate < -10 then "falling"
  else "stable"

/-- `calculateTrendMetrics(timeSeriesData)` of `routes/analytics.js`. -/
def calculateTrendMetrics (sqrt : ℚ → ℚ) (timeSeriesData : List Observation) :
    TrendMetrics :=
  if timeSeriesData.length < 2 then
    { trend := "stable", growthRate := 0, volatility := 0, peak := 0, average := 0,
      totalMentions := none, totalEngagement := none }
  else
    let mentions := mentionsOf timeSeriesData
    let engagements := engagementsOf timeSeriesData
    let growthRate := rawGrowthRate mentions
    let mean := meanOf mentions
    let variance := varianceOf mentions
    let volatility := sqrt variance
    let trend := classifyTrend growthRate
    { trend := trend,
      growthRate := round2 growthRate,
      volatility := round2 volatility,
      peak := mathMax mentions,
      average := round2 mean,
      totalMentions := some (sumReduce mentions),
      totalEngagement := some (sumReduce engagements) }

/-! ## `generatePredictions` -/

/-- `recentMentions.reduce((sum, val, index) => sum + (index + 1) * val, 0)`. -/
def sumXYOf (recentMentions : List ℚ) : ℚ :=
  recentMentions.enum.foldl (fun sum iv => sum + ((iv.1 : ℚ) + 1) * iv.2) 0

/-- The local `sumX = (n * (n + 1)) / 2`. -/
def sumXOf (n : ℚ) : ℚ := (n * (n + 1)) / 2

/-- The local `sumX2 = (n * (n + 1) * (2 * n + 1)) / 6`. -/
def sumX2Of (n : ℚ) : ℚ := (n * (n + 1) * (2 * n + 1)) / 6

/-- The local `slope` of `generatePredictions`, from `recentMentions`. -/
def slopeOf (recentMentions : List ℚ) : ℚ :=
  let n : ℚ := recentMentions.length
  let sumX := sumXOf n
  let sumY := sumReduce recentMentions
  let sumXY := sumXYOf recentMentions
  let sumX2 := sumX2Of n
  (n * sumXY - sumX * sumY) / (n * sumX2 - sumX * sumX)

/-- The local `intercept` of `generatePredictions`, from `recentMentions`. -/
def interceptOf (recentMentions : List ℚ) : ℚ :=
  let n : ℚ := recentMentions.length
  let sumX := sumXOf n
  let sumY := sumReduce recentMentions
  (sumY - slopeOf recentMentions * sumX) / n

/-- The local `recentMentions = mentions.slice(-3)` of `generatePredictions`. -/
def recentMentionsOf (timeSeriesData : List Observation) : List ℚ :=
  sliceLast 3 (mentionsOf timeSeriesData)

/-- `generatePredictions(timeSeriesData)` of `routes/analytics.js`. -/
def generatePredictions (timeSeriesData : List Observation) : Predictions :=
  if timeSeriesData.length < 3 then
    { next_24h := { mentions_prediction := 0, confidence := 0 },
      next_week := { mentions_prediction := 0, confidence := 0 } }
  else
    let recentMentions := recentMentionsOf timeSeriesData
    let n : ℚ := recentMentions.length
    let slope := slopeOf recentMentions
    let intercept := interceptOf recentMentions
    let next24h := max 0 (jsRound (slope * (n + 1) + intercept))
    let confidence24h := min (9 / 10 : ℚ) (max (1 / 10) (1 - |slope| / 100))
    let nextWeek := max 0 (jsRound (slope * (n + 7) + intercept))
    let confidenceWeek := min (7 / 10 : ℚ) (max (1 / 10) (1 - |slope| / 50))
    { next_24h := { mentions_prediction := next24h, confidence := round2 confidence24h },
      next_week := { mentions_prediction := nextWeek, confidence := round2 confidenceWeek } }

/-- An observation with the given mention count and neutral other fields. -/
def obs (t : Int) (m : Nat) : Observation :=
  { timestamp := t, mentions := m, engagement := 0, sentiment_score := 0 }

/-! ## `calculateGrowthRate` and the growth ranking of `GET /growth` -/

/-- `calculateGrowthRate(timeSeriesData)` of `routes/analytics.js`; the reads
`timeSeriesData[0].mentions` and `timeSeriesData[length - 1].mentions` go through
the list of mention counts. -/
def calculateGrowthRate (timeSeriesData : List Observation) : ℚ :=
  if timeSeriesData.length < 2 then 0
  else
    let firstMentions := (mentionsOf timeSeriesData).getD 0 0
    let lastMentions :=
      (mentionsOf timeSeriesData).getD ((mentionsOf timeSeriesData).length - 1) 0
    if firstMentions = 0 then (if lastMentions > 0 then 100 else 0)
    else (jsRound (((lastMentions - firstMentions) / firstMentions) * 100 * 100) : ℚ) / 100

/-- `xs.sort(compare)`: `Array.prototype.sort` is a stable sort that puts `a`
before `b` when `compare(a, b) < 0` and keeps their order when it is `0`. -/
def jsSort {α : Type} (compare : α → α → ℚ) (xs : List α) : List α :=
  xs.mergeSort (fun a b => decide (compare a b ≤ 0))

/-- The fields of a hashtag document (`models/Hashtag.js`) that the modelled
routes and methods read or write: `mentions`, `likes`, `shares`, `comments` and
`engagement_rate` are the keys of `metrics`, `overall_score` is
`sentiment.overall_score`, `first_seen` and `last_updated` are the keys of
`metadata` (milliseconds). -/
structure HashtagDoc where
  hashtag : String
  platform : String
  category : String
  mentions : ℚ
  likes : ℚ
  shares : ℚ
  comments : ℚ
  engagement_rate : ℚ
  overall_score : ℚ
  trending_score : ℚ
  time_series : List Observation
  first_seen : Int
  last_updated : Int
deriving DecidableEq, Repr

/-- One element of `growthData` in `GET /growth`. -/
structure GrowthEntry where
  hashtag : String
  platform : String
  category : String
  currentMentions : ℚ
  growthRate : ℚ
  trending_score : ℚ
deriving DecidableEq, Repr

/-- The JSON body of `GET /growth`. -/
structure GrowthResponse where
  fastestGrowing : List GrowthEntry
  declining : List GrowthEntry
  period : String
deriving DecidableEq, Repr

/-- `new Date(Date.now() - parseInt(days) * 24 * 60 * 60 * 1000)` in milliseconds,
with `now` the value of `Date.now()`. -/
def cutoffDate (now days : Int) : Int := now - days * 24 * 60 * 60 * 1000

/-- The window of a stored series:
`time_series.filter((entry) => entry.timestamp >= cutoff).sort((a, b) => a.timestamp - b.timestamp)`. -/
def windowOf (cutoff : Int) (time_series : List Observation) : List Observation :=
  jsSort (fun a b => ((a.timestamp - b.timestamp : Int) : ℚ))
    (time_series.filter (fun entry => decide (entry.timestamp ≥ cutoff)))

/-- The element of `growthData` built from one stored document. -/
def growthEntryOf (now days : Int) (hashtag : HashtagDoc) : GrowthEntry :=
  let timeSeries := windowOf (cutoffDate now days) hashtag.time_series
  let growthRate := calculateGrowthRate timeSeries
  { hashtag := hashtag.hashtag,
    platform := hashtag.platform,
    category := hashtag.category,
    currentMentions := hashtag.mentions,
    growthRate := growthRate,
    trending_score := hashtag.trending_score }

/-- `growthData = hashtags.map(...)` of `GET /growth`. -/
def growthDataOf (now days : Int) (hashtags : List HashtagDoc) : List GrowthEntry :=
  hashtags.map (growthEntryOf now days)

/-- `fastestGrowing` of `GET /growth`: positive growth, descending, first ten. -/
def fastestGrowingOf (growthData : List GrowthEntry) : List GrowthEntry :=
  (jsSort (fun a b => b.growthRate - a.growthRate)
    (growthData.filter (fun item => decide (item.growthRate > 0)))).take 10

/-- `declining` of `GET /growth`: negative growth, ascending, first ten. -/
def decliningOf (growthData : List GrowthEntry) : List GrowthEntry :=
  (jsSort (fun a b => a.growthRate - b.growthRate)
    (growthData.filter (fun item => decide (item.growthRate < 0)))).take 10

/-- The handler of `GET /growth` on the documents `hashtags` returned by the
store query, at time `now` with period `days`. -/
def growthRoute (now days : Int) (hashtags : List HashtagDoc) : GrowthResponse :=
  let growthData := growthDataOf now days hashtags
  { fastestGrowing := fastestGrowingOf growthData,
    declining := decliningOf growthData,
    period := toString days ++ " days" }

/-- A growth entry with the given name and growth rate and neutral other fields. -/
def entry (name : String) (rate : ℚ) : GrowthEntry :=
  { hashtag := name, platform := "twitter", category := "other", currentMentions := 0,
    growthRate := rate, trending_score := 0 }

/-- A whole-number stand-in for `Math.sqrt` in examples: the integer square
root of the integer part. It is non-negative and sends 0 to 0. -/
def sqrtFloor (x : ℚ) : ℚ := (Nat.sqrt ⌊x⌋.toNat : ℚ)

/-! ## Queries over one stored document -/

/-- The window that `GET /trends/:hashtag` hands to `calculateTrendMetrics`:
`time_series` filtered to `timestamp >= cutoffDate` and sorted by timestamp. -/
def trendsWindow (now days : Int) (hashtagData : HashtagDoc) : List Observation :=
  windowOf (cutoffDate now days) hashtagData.time_series

/-- The `analysis` of the body of `GET /trends/:hashtag` for the found document. -/
def trendsAnalysis (sqrt : ℚ → ℚ) (now days : Int) (hashtagData : HashtagDoc) : TrendMetrics :=
  calculateTrendMetrics sqrt (trendsWindow now days hashtagData)

/-- The `predictions` of the body of `GET /predictions/:hashtag` for the found
document: `generatePredictions(hashtagData.time_series)`. -/
def predictionsQuery (hashtagData : HashtagDoc) : Predictions :=
  generatePredictions hashtagData.time_series

/-! ## `updateTrendingScore` and the scores assigned at ingestion -/

/-- `hashtagSchema.methods.updateTrendingScore` of `models/Hashtag.js` at time
`now = Date.now()`: the document after the call and the returned value. -/
def updateTrendingScore (now : Int) (self : HashtagDoc) : HashtagDoc × ℚ :=
  let recentMentions :=
    (self.time_series.filter
      (fun entry => decide (entry.timestamp > now - 24 * 60 * 60 * 1000))).foldl
      (fun sum entry => sum + (entry.mentions : ℚ)) 0
  let engagementWeight := self.engagement_rate * (3 / 10)
  let mentionWeight := recentMentions * (4 / 10)
  let sentimentWeight := self.overall_score * (3 / 10)
  let score := engagementWeight + mentionWeight + sentimentWeight
  ({ self with trending_score := score }, score)

/-- The `data.trending_score` assigned in the Twitter branch of
`POST /fetch/:hashtag` (`routes/socialMedia.js`). -/
def twitterFetchScore (data : HashtagDoc) : ℚ :=
  data.engagement_rate * (3 / 10) + data.mentions * (4 / 10) + data.overall_score * (3 / 10)

/-- The `data.trending_score` assigned in the YouTube branch of
`POST /fetch/:hashtag` (`routes/socialMedia.js`). -/
def youtubeFetchScore (data : HashtagDoc) : ℚ :=
  data.engagement_rate * (3 / 10) + data.mentions * (4 / 10) + data.overall_score * (3 / 10)

/-- `Hashtag.findOneAndUpdate(filter, { ...data, "metadata.last_updated": new Date() },
{ upsert: true, new: true })` as Mongoose runs it: an update document without
update operators sets each of its keys, so every key of `data`, `time_series`
included, replaces the stored value; keys absent from `data` (`first_seen`) keep
the stored value, or take the schema default on insert. -/
def findOneAndUpdate (stored : Option HashtagDoc) (data : HashtagDoc) (now : Int) :
    HashtagDoc :=
  { data with
    first_seen := match stored with
      | some doc => doc.first_seen
      | none => now
    last_updated := now }

/-- The Twitter branch of `POST /fetch/:hashtag` for fetched `data`: category
and trending score are assigned, then the document is upserted. -/
def fetchAndStoreTwitter (stored : Option HashtagDoc) (data : HashtagDoc) (category : String)
    (now : Int) : HashtagDoc :=
  findOneAndUpdate stored
    { data with category := category, trending_score := twitterFetchScore data } now

/-- The YouTube branch of `POST /fetch/:hashtag` for fetched `data`. -/
def fetchAndStoreYoutube (stored : Option HashtagDoc) (data : HashtagDoc) (category : String)
    (now : Int) : HashtagDoc :=
  findOneAndUpdate stored
    { data with category := category, trending_score := youtubeFetchScore data } now

/-- The one-element `time_series` that `getHashtagData` of both services
builds, stamped `new Date()`, from the totals of the fetched posts. -/
def fetchedSeries (now : Int) (totalMentions totalEngagement : Nat) (avgSentiment : ℚ) :
    List Observation :=
  [{ timestamp := now, mentions := totalMentions, engagement := totalEngagement,
     sentiment_score := avgSentiment }]

/-! ## The analytics helpers with failure made explicit

The same three functions, where a division by zero, a read outside an array
and a call with too many arguments fail (`none`) instead of yielding a value. -/

/-- `a / b`, failing on a zero divisor. -/
def checkedDiv (a b : ℚ) : Option ℚ := if b = 0 then none else some (a / b)

/-- `calculateTrendMetrics` with checked divisions, array reads and call: the
spread call `Math.max(...mentions)` passes one argument per observation and
throws `RangeError` when there are more than the engine accepts, `maxArgs`. -/
def calculateTrendMetricsChecked (maxArgs : Nat) (sqrt : ℚ → ℚ)
    (timeSeriesData : List Observation) : Option TrendMetrics :=
  if timeSeriesData.length < 2 then
    some { trend := "stable", growthRate := 0, volatility := 0, peak := 0, average := 0,
           totalMentions := none, totalEngagement := none }
  else do
    let mentions := mentionsOf timeSeriesData
    let engagements := engagementsOf timeSeriesData
    let firstMentions ← mentions[0]?
    let lastMentions ← mentions[mentions.length - 1]?
    let growthRate ←
      if firstMentions > 0 then
        (checkedDiv (lastMentions - firstMentions) firstMentions).map (fun q => q * 100)
      else some 0
    let mean ← checkedDiv (sumReduce mentions) mentions.length
    let variance ←
      checkedDiv (mentions.foldl (fun sum val => sum + (val - mean) ^ 2) 0) mentions.length
    let volatility := sqrt variance
    let trend := classifyTrend growthRate
    let peak ←
      if mentions.length > maxArgs then none
      else match mentions with
        | [] => none
        | x :: xs => some (xs.foldl max x)
    some { trend := trend,
           growthRate := round2 growthRate,
           volatility := round2 volatility,
           peak := peak,
           average := round2 mean,
           totalMentions := some (sumReduce mentions),
           totalEngagement := some (sumReduce engagements) }

/-- `generatePredictions` with checked divisions. -/
def generatePredictionsChecked (timeSeriesData : List Observation) : Option Predictions :=
  if timeSeriesData.length < 3 then
    some { next_24h := { mentions_prediction := 0, confidence := 0 },
           next_week := { mentions_prediction := 0, confidence := 0 } }
  else do
    let recentMentions := recentMentionsOf timeSeriesData
    let n : ℚ := recentMentions.length
    let sumX ← checkedDiv (n * (n + 1)) 2
    let sumY := sumReduce recentMentions
    let sumXY := sumXYOf recentMentions
    let sumX2 ← checkedDiv (n * (n + 1) * (2 * n + 1)) 6
    let slope ← checkedDiv (n * sumXY - sumX * sumY) (n * sumX2 - sumX * sumX)
    let intercept ← checkedDiv (sumY - slope * sumX) n
    let next24h := max 0 (jsRound (slope * (n + 1) + intercept))
    let c24 ← checkedDiv |slope| 100
    let confidence24h := min (9 / 10 : ℚ) (max (1 / 10) (1 - c24))
    let nextWeek := max 0 (jsRound (slope * (n + 7) + intercept))
    let cWeek ← checkedDiv |slope| 50
    let confidenceWeek := min (7 / 10 : ℚ) (max (1 / 10) (1 - cWeek))
    some { next_24h := { mentions_prediction := next24h, confidence := round2 confidence24h },
           next_week := { mentions_prediction := nextWeek,
                          confidence := round2 confidenceWeek } }

/-- `calculateGrowthRate` with checked division and array reads. -/
def calculateGrowthRateChecked (timeSeriesData : List Observation) : Option ℚ :=
  if timeSeriesData.length < 2 then some 0
  else do
    let first ← timeSeriesData[0]?
    let last ← timeSeriesData[timeSeriesData.length - 1]?
    let firstMentions : ℚ := first.mentions
    let lastMentions : ℚ := last.mentions
    if firstMentions = 0 then some (if lastMentions > 0 then 100 else 0)
    else do
      let ratio ← checkedDiv (lastMentions - firstMentions) firstMentions
      some ((jsRound (ratio * 100 * 100) : ℚ) / 100)

/-! ## `GET /compare/:hashtag` -/

/-- One value of `comparison.platforms`. -/
structure PlatformSummary where
  mentions : ℚ
  engagement : ℚ
  sentiment : ℚ
  trending_score : ℚ
  category : String
  last_updated : Int
deriving DecidableEq, Repr

/-- `obj[key] = value` on an object kept as its list of entries in key order: an
existing key keeps its place and gets the new value, a new key goes last. -/
def setKey (obj : List (String × PlatformSummary)) (key : String) (value : PlatformSummary) :
    List (String × PlatformSummary) :=
  if obj.any (fun kv => kv.1 == key) then
    obj.map (fun kv => if kv.1 == key then (key, value) else kv)
  else obj ++ [(key, value)]

/-- `Object.entries(comparison.platforms)` after the `forEach` of
`GET /compare/:hashtag`. -/
def platformEntries (hashtagData : List HashtagDoc) : List (String × PlatformSummary) :=
  hashtagData.foldl
    (fun obj data => setKey obj data.platform
      { mentions := data.mentions,
        engagement := data.likes + data.shares + data.comments,
        sentiment := data.overall_score,
        trending_score := data.trending_score,
        category := data.category,
        last_updated := data.last_updated })
    []

/-- The accumulator of the `reduce` of `GET /compare/:hashtag`: without an
initial value it starts as the first element of `Object.entries`, the array
`[platform, data]`; the callback can replace it by the object
`{ platform, ...data }`. -/
inductive Best where
  | pair (platform : String) (data : PlatformSummary)
  | record (platform : String) (data : PlatformSummary)
deriving DecidableEq, Repr

/-- `best.trending_score`: `undefined` (`none`) on the array `[platform, data]`. -/
def Best.trending_score : Best → Option ℚ
  | Best.pair _ _ => none
  | Best.record _ data => some data.trending_score

/-- `best.platform`: `undefined` (`none`) on the array `[platform, data]`. -/
def Best.platform : Best → Option String
  | Best.pair _ _ => none
  | Best.record platform _ => some platform

/-- `x > y` of JavaScript for a number `x` and a `y` that may be `undefined`:
a comparison with `undefined` is `false`. -/
def jsGreater (x : ℚ) (y : Option ℚ) : Bool :=
  match y with
  | none => false
  | some v => decide (x > v)

/-- `comparison.summary.bestPerformingPlatform` of `GET /compare/:hashtag` from
`platforms = Object.entries(comparison.platforms)`: it stays `null` for no
platform, else it is `platforms.reduce(...).platform`; `none` stands for `null`
and for `undefined`. -/
def bestPerformingPlatform (platforms : List (String × PlatformSummary)) : Option String :=
  match platforms with
  | [] => none
  | first :: rest =>
    (rest.foldl
      (fun best pd =>
        if jsGreater pd.2.trending_score best.trending_score then Best.record pd.1 pd.2
        else best)
      (Best.pair first.1 first.2)).platform

/-- The `summary.bestPerformingPlatform` of the body of `GET /compare/:hashtag`
for the found documents. -/
def compareBest (hashtagData : List HashtagDoc) : Option String :=
  bestPerformingPlatform (platformEntries hashtagData)

/-- A document of the given platform, trending score and series, with
neutral other fields. -/
def docOf (platform : String) (score : ℚ) (series : List Observation) : HashtagDoc :=
  { hashtag := "tag", platform := platform, category := "other", mentions := 0, likes := 0,
    shares := 0, comments := 0, engagement_rate := 0, overall_score := 0,
    trending_score := score, time_series := series, first_seen := 0, last_updated := 0 }

/-! ## IEEE-754 double precision

The definitions above compute in exact rationals. Where a returned number is
rounded to two decimals the code rounds a double, and at a value ending in an
exact 5 in the third decimal the double can lie on either side. The
definitions of this section repeat the rounded fields with every arithmetic
operation of the source rounded to binary64 (round to nearest, ties to even;
overflow and subnormal numbers, out of reach of these inputs, are not
modelled). -/

/-- Round to the nearest integer, a half to the even neighbour. -/
def roundHalfEven (y : ℚ) : Int :=
  if y - ⌊y⌋ < 1 / 2 then ⌊y⌋
  else if y - ⌊y⌋ > 1 / 2 then ⌊y⌋ + 1
  else if ⌊y⌋ % 2 = 0 then ⌊y⌋ else ⌊y⌋ + 1

/-- The binary64 number nearest to `x`: with `2^e` the unit in the last of the
53 significant bits of `x`, the multiple of `2^e` nearest to `x`. -/
def fl (x : ℚ) : ℚ :=
  if x = 0 then 0
  else (roundHalfEven (x / (2 : ℚ) ^ (Int.log 2 |x| - 52)) : ℚ) * (2 : ℚ) ^ (Int.log 2 |x| - 52)

/-- `a + b` on doubles. -/
def fadd (a b : ℚ) : ℚ := fl (a + b)

/-- `a - b` on doubles. -/
def fsub (a b : ℚ) : ℚ := fl (a - b)

/-- `a * b` on doubles. -/
def fmul (a b : ℚ) : ℚ := fl (a * b)

/-- `a / b` on doubles (every divisor of these paths is non-zero). -/
def fdiv (a b : ℚ) : ℚ := fl (a / b)

/-- `Math.round(x * 100) / 100` on doubles. -/
def round2D (x : ℚ) : ℚ := fdiv (jsRound (fmul x 100) : ℚ) 100

/-- The local `growthRate` of `calculateTrendMetrics` on doubles:
`((lastMentions - firstMentions) / firstMentions) * 100`, or `0`. -/
def rawGrowthRateD (mentions : List ℚ) : ℚ :=
  let firstMentions := mentions.getD 0 0
  let lastMentions := mentions.getD (mentions.length - 1) 0
  if firstMentions > 0 then fmul (fdiv (fsub lastMentions firstMentions) firstMentions) 100
  else 0

/-- The `growthRate` field returned by `calculateTrendMetrics`, on doubles. -/
def growthRateDouble (timeSeriesData : List Observation) : ℚ :=
  if timeSeriesData.length < 2 then 0
  else round2D (rawGrowthRateD (mentionsOf timeSeriesData))

/-- `xs.reduce((sum, val) => sum + val, 0)` on doubles. -/
def sumReduceD (xs : List ℚ) : ℚ := xs.foldl (fun sum val => fadd sum val) 0

/-- The local `mean` of `calculateTrendMetrics` on doubles. -/
def meanD (mentions : List ℚ) : ℚ := fdiv (sumReduceD mentions) mentions.length

/-- The `average` field returned by `calculateTrendMetrics`, on doubles. -/
def averageDouble (timeSeriesData : List Observation) : ℚ :=
  if timeSeriesData.length < 2 then 0
  else round2D (meanD (mentionsOf timeSeriesData))

/-- `recentMentions.reduce((sum, val, index) => sum + (index + 1) * val, 0)` on
doubles. -/
def sumXYD (recentMentions : List ℚ) : ℚ :=
  recentMentions.enum.foldl (fun sum iv => fadd sum (fmul (fadd (iv.1 : ℚ) 1) iv.2)) 0

/-- The local `slope` of `generatePredictions` on doubles. -/
def slopeD (recentMentions : List ℚ) : ℚ :=
  let n : ℚ := recentMentions.length
  let sumX := fdiv (fmul n (fadd n 1)) 2
  let sumY := sumReduceD recentMentions
  let sumXY := sumXYD recentMentions
  let sumX2 := fdiv (fmul (fmul n (fadd n 1)) (fadd (fmul 2 n) 1)) 6
  fdiv (fsub (fmul n sumXY) (fmul sumX sumY)) (fsub (fmul n sumX2) (fmul sumX sumX))

/-- `Math.min(hi, Math.max(0.1, 1 - Math.abs(slope) / divisor))` on doubles; the
literals `0.1` and `hi` are the doubles nearest to them. -/
def confidenceD (hi divisor slope : ℚ) : ℚ :=
  min (fl hi) (max (fl (1 / 10)) (fsub 1 (fdiv |slope| divisor)))

/-- The `next_24h.confidence` field returned by `generatePredictions`, on
doubles. -/
def confidence24hDouble (timeSeriesData : List Observation) : ℚ :=
  if timeSeriesData.length < 3 then 0
  else round2D (confidenceD (9 / 10) 100 (slopeD (recentMentionsOf timeSeriesData)))

/-- The `next_week.confidence` field returned by `generatePredictions`, on
doubles. -/
def confidenceWeekDouble (timeSeriesData : List Observation) : ℚ :=
  if timeSeriesData.length < 3 then 0
  else round2D (confidenceD (7 / 10) 50 (slopeD (recentMentionsOf timeSeriesData)))

/-- A window of 23 observations with one mention followed by 17 with none. -/
def sparseWindow : List Observation :=
  List.replicate 23 (obs 0 1) ++ List.replicate 17 (obs 0 0)

/-! ## Reference definitions of the specification

The specification describes the fit of `generatePredictions` as ordinary least
squares and its confidences through `clamp`. These definitions follow those
words; the theorems below compare them with the code. -/

/-- The points `(1, y1), (2, y2), (3, y3)`: three values against the position
indices `1..3`. -/
def indexedPoints (y1 y2 y3 : ℚ) : List (ℚ × ℚ) := [(1, y1), (2, y2), (3, y3)]

/-- Sum over the points of the squared residual `(y - (a * x + b))^2` of the
line with slope `a` and intercept `b`. -/
def sumSquaredResiduals (pts : List (ℚ × ℚ)) (a b : ℚ) : ℚ :=
  (pts.map (fun p => (p.2 - (a * p.1 + b)) ^ 2)).sum

/-- Arithmetic mean of a list of rationals. -/
def listMean (xs : List ℚ) : ℚ := xs.sum / xs.length

/-- Ordinary least-squares slope of a list of points, in the covariance form
`Σ (x - x̄)(y - ȳ) / Σ (x - x̄)^2`. -/
def lsqSlope (pts : List (ℚ × ℚ)) : ℚ :=
  let xbar := listMean (pts.map Prod.fst)
  let ybar := listMean (pts.map Prod.snd)
  (pts.map (fun p => (p.1 - xbar) * (p.2 - ybar))).sum
    / (pts.map (fun p => (p.1 - xbar) ^ 2)).sum

/-- Ordinary least-squares intercept of a list of points: `ȳ - slope * x̄`. -/
def lsqIntercept (pts : List (ℚ × ℚ)) : ℚ :=
  listMean (pts.map Prod.snd) - lsqSlope pts * listMean (pts.map Prod.fst)

/-- The usual `clamp(x, lo, hi)`: `x` limited to the interval `[lo, hi]`. -/
def clamp (x lo hi : ℚ) : ℚ := max lo (min x hi)

/-- The population variance of a list of values in the words of the
specification: `(1 / n)` times the sum over all values of `(value - mean)^2`. -/
def populationVariance (xs : List ℚ) : ℚ :=
  (1 / (xs.length : ℚ)) * (xs.map (fun x => (x - listMean xs) ^ 2)).sum

/-! ## Auxiliary facts -/

theorem jsRound_le_iff (x : ℚ) (z : Int) : z ≤ jsRound x ↔ (z : ℚ) ≤ x + 1 / 2 := by
  unfold jsRound
  exact Int.le_floor

theorem jsRound_lt_iff (x : ℚ) (z : Int) : jsRound x < z ↔ x + 1 / 2 < (z : ℚ) := by
  unfold jsRound
  exact Int.floor_lt

theorem jsRound_eq_iff (x : ℚ) (z : Int) :
    jsRound x = z ↔ (z : ℚ) ≤ x + 1 / 2 ∧ x + 1 / 2 < (z : ℚ) + 1 := by
  unfold jsRound
  exact Int.floor_eq_iff

theorem jsRound_intCast (z : Int) : jsRound (z : ℚ) = z := by
  rw [jsRound_eq_iff]
  constructor <;> linarith

/-- A bound `k / 100` below the argument stays below its two-decimal rounding. -/
theorem le_round2 (x : ℚ) (k : Int) (h : (k : ℚ) / 100 ≤ x) : (k : ℚ) / 100 ≤ round2 x := by
  unfold round2
  have hk : k ≤ jsRound (x * 100) := by
    rw [jsRound_le_iff]
    linarith
  have hq : (k : ℚ) ≤ (jsRound (x * 100) : ℚ) := by exact_mod_cast hk
  linarith

/-- A bound `k / 100` above the argument stays above its two-decimal rounding. -/
theorem round2_le (x : ℚ) (k : Int) (h : x ≤ (k : ℚ) / 100) : round2 x ≤ (k : ℚ) / 100 := by
  unfold round2
  have hk : jsRound (x * 100) < k + 1 := by
    rw [jsRound_lt_iff]
    push_cast
    linarith
  have hk2 : jsRound (x * 100) ≤ k := by omega
  have hq : (jsRound (x * 100) : ℚ) ≤ (k : ℚ) := by exact_mod_cast hk2
  linarith

/-- Rounding to two decimals can only exceed `k / 100` if the argument does. -/
theorem lt_of_lt_round2 (x : ℚ) (k : Int) (h : (k : ℚ) / 100 < round2 x) :
    (k : ℚ) / 100 < x := by
  by_contra hx
  exact absurd (round2_le x k (not_lt.mp hx)) (not_le.mpr h)

/-- Rounding to two decimals can only fall below `k / 100` if the argument does. -/
theorem lt_of_round2_lt (x : ℚ) (k : Int) (h : round2 x < (k : ℚ) / 100) :
    x < (k : ℚ) / 100 := by
  by_contra hx
  exact absurd (le_round2 x k (not_lt.mp hx)) (not_le.mpr h)

theorem mentionsOf_getD_first (ts : List Observation) (first : Observation)
    (h : ts.head? = some first) : (mentionsOf ts).getD 0 0 = (first.mentions : ℚ) := by
  cases ts with
  | nil => simp at h
  | cons a t =>
    simp at h
    subst h
    simp [mentionsOf]

theorem mentionsOf_getD_last (ts : List Observation) (last : Observation)
    (h : ts.getLast? = some last) :
    (mentionsOf ts).getD ((mentionsOf ts).length - 1) 0 = (last.mentions : ℚ) := by
  rw [List.getLast?_eq_getElem?] at h
  simp [mentionsOf, List.getD_eq_getElem?_getD, List.getElem?_map, h]

theorem classifyTrend_rising (g : ℚ) : classifyTrend g = "rising" ↔ 10 < g := by
  unfold classifyTrend
  split_ifs with h1 h2
  · exact iff_of_true rfl h1
  · exact iff_of_false (by decide) h1
  · exact iff_of_false (by decide) h1

theorem classifyTrend_falling (g : ℚ) : classifyTrend g = "falling" ↔ g < -10 := by
  unfold classifyTrend
  split_ifs with h1 h2
  · exact iff_of_false (by decide) (by linarith)
  · exact iff_of_true rfl h2
  · exact iff_of_false (by decide) h2

theorem classifyTrend_stable (g : ℚ) : classifyTrend g = "stable" ↔ -10 ≤ g ∧ g ≤ 10 := by
  unfold classifyTrend
  split_ifs with h1 h2
  · exact iff_of_false (by decide) (fun h => absurd h1 (not_lt.mpr h.2))
  · exact iff_of_false (by decide) (fun h => absurd h2 (not_lt.mpr h.1))
  · exact iff_of_true rfl ⟨not_lt.mp h2, not_lt.mp h1⟩

theorem rawGrowthRate_short (ts : List Observation) (h : ts.length < 2) :
    rawGrowthRate (mentionsOf ts) = 0 := by
  match ts, h with
  | [], _ => simp [rawGrowthRate, mentionsOf]
  | [a], _ => simp [rawGrowthRate, mentionsOf]

/-! ## Trend metrics: growth rate and classification -/

/-- C2: for a window of at least two observations, with
`g = (last.mentions - first.mentions) / first.mentions * 100`: when
`first.mentions = 0` the trend is "stable"; when `first.mentions > 0` the trend is
"rising" exactly when `g > 10`, "falling" exactly when `g < -10`, and "stable"
exactly when `-10 ≤ g ≤ 10` (both boundary values included). -/
theorem trend_by_growth (sqrt : ℚ → ℚ) (ts : List Observation)
    (first last : Observation) (hlen : 2 ≤ ts.length)
    (hfirst : ts.head? = some first) (hlast : ts.getLast? = some last) :
    (first.mentions = 0 → (calculateTrendMetrics sqrt ts).trend = "stable") ∧
    (0 < first.mentions →
      ((calculateTrendMetrics sqrt ts).trend = "rising" ↔
        10 < ((last.mentions : ℚ) - first.mentions) / first.mentions * 100) ∧
      ((calculateTrendMetrics sqrt ts).trend = "falling" ↔
        ((last.mentions : ℚ) - first.mentions) / first.mentions * 100 < -10) ∧
      ((calculateTrendMetrics sqrt ts).trend = "stable" ↔
        -10 ≤ ((last.mentions : ℚ) - first.mentions) / first.mentions * 100 ∧
        ((last.mentions : ℚ) - first.mentions) / first.mentions * 100 ≤ 10)) := by
  have hguard : ¬ ts.length < 2 := by omega
  have h0 := mentionsOf_getD_first ts first hfirst
  have h1 := mentionsOf_getD_last ts last hlast
  have htrend : (calculateTrendMetrics sqrt ts).trend
      = classifyTrend (rawGrowthRate (mentionsOf ts)) := by
    simp only [calculateTrendMetrics, hguard, if_false]
  constructor
  · intro hzero
    have hraw : rawGrowthRate (mentionsOf ts) = 0 := by
      simp only [rawGrowthRate, h0, hzero]
      simp
    rw [htrend, hraw, classifyTrend_stable]
    constructor <;> norm_num
  · intro hpos
    have hq : (0 : ℚ) < (first.mentions : ℚ) := by exact_mod_cast hpos
    have hraw : rawGrowthRate (mentionsOf ts)
        = ((last.mentions : ℚ) - first.mentions) / first.mentions * 100 := by
      simp only [rawGrowthRate, h0, h1]
      rw [if_pos hq]
    rw [htrend, hraw]
    exact ⟨classifyTrend_rising _, classifyTrend_falling _, classifyTrend_stable _⟩

/-- Witness of C2 on the window with mentions 100, 150, 90 (growth exactly -10). -/
theorem trend_by_growth_witness :
    (calculateTrendMetrics (fun _ => 0) [obs 0 100, obs 1 150, obs 2 90]).trend = "stable" ↔
      -10 ≤ (((obs 2 90).mentions : ℚ) - (obs 0 100).mentions) / (obs 0 100).mentions * 100 ∧
      (((obs 2 90).mentions : ℚ) - (obs 0 100).mentions) / (obs 0 100).mentions * 100 ≤ 10 :=
  ((trend_by_growth (fun _ => 0) [obs 0 100, obs 1 150, obs 2 90] (obs 0 100) (obs 2 90)
    (by decide) rfl rfl).2 (by decide)).2.2

/-- The unrounded growth rate and the trend of the window with mentions
25000, 27501: the growth is 10.004 percent. -/
theorem rawGrowthRate_boundary_window :
    rawGrowthRate (mentionsOf [obs 0 25000, obs 1 27501]) = 2501 / 250 := by
  norm_num [rawGrowthRate, mentionsOf, obs]

/-- Counterexample to C3 as stated: the window with mentions 25000, 27501 has
unrounded growth 10.004, so the returned `growthRate` is exactly 10, inside
`[-10, 10]`, while the returned `trend` is "rising", not "stable". -/
theorem trend_selfconsistency_counterexample :
    [obs 0 25000, obs 1 27501].length = 2 ∧
    ∀ sqrt : ℚ → ℚ,
      (calculateTrendMetrics sqrt [obs 0 25000, obs 1 27501]).growthRate = 10 ∧
      (calculateTrendMetrics sqrt [obs 0 25000, obs 1 27501]).trend = "rising" ∧
      ¬ (-10 ≤ (calculateTrendMetrics sqrt [obs 0 25000, obs 1 27501]).growthRate ∧
          (calculateTrendMetrics sqrt [obs 0 25000, obs 1 27501]).growthRate ≤ 10 →
          (calculateTrendMetrics sqrt [obs 0 25000, obs 1 27501]).trend = "stable") := by
  refine ⟨rfl, fun sqrt => ?_⟩
  have hg : (calculateTrendMetrics sqrt [obs 0 25000, obs 1 27501]).growthRate = 10 := by
    have hguard : ¬ [obs 0 25000, obs 1 27501].length < 2 := by decide
    simp only [calculateTrendMetrics, hguard, if_false, rawGrowthRate_boundary_window, round2]
    have hr : jsRound (2501 / 250 * 100) = 1000 := by
      rw [jsRound_eq_iff]
      constructor <;> norm_num
    rw [hr]
    norm_num
  have ht : (calculateTrendMetrics sqrt [obs 0 25000, obs 1 27501]).trend = "rising" := by
    have hguard : ¬ [obs 0 25000, obs 1 27501].length < 2 := by decide
    simp only [calculateTrendMetrics, hguard, if_false, rawGrowthRate_boundary_window]
    rw [classifyTrend_rising]
    norm_num
  refine ⟨hg, ht, ?_⟩
  rw [hg, ht]
  intro h
  exact absurd (h ⟨by norm_num, le_refl _⟩) (by decide)

/-- C3 (amended): in the result of `calculateTrendMetrics`, a returned
`growthRate > 10` comes with trend "rising", a returned `growthRate < -10` with
trend "falling", and a returned `growthRate` strictly between -10 and 10 with
trend "stable"; the trend is "stable" exactly when the growth rate before
rounding lies in `[-10, 10]`, which a returned value of exactly 10 or -10 does
not decide. -/
theorem trend_selfconsistency (sqrt : ℚ → ℚ) (ts : List Observation) :
    (10 < (calculateTrendMetrics sqrt ts).growthRate →
      (calculateTrendMetrics sqrt ts).trend = "rising") ∧
    ((calculateTrendMetrics sqrt ts).growthRate < -10 →
      (calculateTrendMetrics sqrt ts).trend = "falling") ∧
    (-10 < (calculateTrendMetrics sqrt ts).growthRate ∧
      (calculateTrendMetrics sqrt ts).growthRate < 10 →
      (calculateTrendMetrics sqrt ts).trend = "stable") ∧
    ((calculateTrendMetrics sqrt ts).trend = "stable" ↔
      -10 ≤ rawGrowthRate (mentionsOf ts) ∧ rawGrowthRate (mentionsOf ts) ≤ 10) := by
  by_cases hshort : ts.length < 2
  · have hr : calculateTrendMetrics sqrt ts =
        { trend := "stable", growthRate := 0, volatility := 0, peak := 0, average := 0,
          totalMentions := none, totalEngagement := none } := by
      simp only [calculateTrendMetrics, hshort, if_true]
    rw [hr, rawGrowthRate_short ts hshort]
    refine ⟨fun h => ?_, fun h => ?_, fun _ => rfl, ?_⟩
    · exact absurd h (by norm_num)
    · exact absurd h (by norm_num)
    · exact iff_of_true rfl ⟨by norm_num, by norm_num⟩
  · have hg : (calculateTrendMetrics sqrt ts).growthRate
        = round2 (rawGrowthRate (mentionsOf ts)) := by
      simp only [calculateTrendMetrics, hshort, if_false]
    have ht : (calculateTrendMetrics sqrt ts).trend
        = classifyTrend (rawGrowthRate (mentionsOf ts)) := by
      simp only [calculateTrendMetrics, hshort, if_false]
    rw [hg, ht]
    refine ⟨fun h => ?_, fun h => ?_, fun h => ?_, classifyTrend_stable _⟩
    · rw [classifyTrend_rising]
      have := lt_of_lt_round2 (rawGrowthRate (mentionsOf ts)) 1000 (by push_cast; linarith)
      push_cast at this
      linarith
    · rw [classifyTrend_falling]
      have := lt_of_round2_lt (rawGrowthRate (mentionsOf ts)) (-1000) (by push_cast; linarith)
      push_cast at this
      linarith
    · rw [classifyTrend_stable]
      constructor
      · by_contra hc
        have := round2_le (rawGrowthRate (mentionsOf ts)) (-1000)
          (by push_cast; linarith [not_le.mp hc])
        push_cast at this
        linarith [h.1]
      · by_contra hc
        have := le_round2 (rawGrowthRate (mentionsOf ts)) 1000
          (by push_cast; linarith [not_le.mp hc])
        push_cast at this
        linarith [h.2]

/-! ## Trend metrics: the degenerate window -/

/-- C4: for a window with fewer than two observations `calculateTrendMetrics`
returns exactly `{trend: "stable", growthRate: 0, volatility: 0, peak: 0,
average: 0}` (and no totals); the function is total, so no error is raised. -/
theorem trendMetrics_degenerate (sqrt : ℚ → ℚ) (ts : List Observation)
    (hlen : ts.length < 2) :
    calculateTrendMetrics sqrt ts =
      { trend := "stable", growthRate := 0, volatility := 0, peak := 0, average := 0,
        totalMentions := none, totalEngagement := none } := by
  simp only [calculateTrendMetrics, hlen, if_true]

/-- Witness of C4 on a single observation with a large mention count. -/
theorem trendMetrics_degenerate_witness :
    [obs 0 5000].length < 2 ∧
    calculateTrendMetrics (fun x => x) [obs 0 5000] =
      { trend := "stable", growthRate := 0, volatility := 0, peak := 0, average := 0,
        totalMentions := none, totalEngagement := none } :=
  ⟨by decide, trendMetrics_degenerate (fun x => x) [obs 0 5000] (by decide)⟩

/-! ## Predictions: the regression over the last three observations -/

theorem exists_last_three (ts : List Observation) (hlen : 3 ≤ ts.length) :
    ∃ (pre : List Observation) (o1 o2 o3 : Observation), ts = pre ++ [o1, o2, o3] := by
  have hsplit : ts = ts.take (ts.length - 3) ++ ts.drop (ts.length - 3) :=
    (List.take_append_drop _ _).symm
  have hd : (ts.drop (ts.length - 3)).length = 3 := by
    rw [List.length_drop]
    omega
  obtain ⟨o1, o2, o3, h3⟩ := List.length_eq_three.mp hd
  exact ⟨ts.take (ts.length - 3), o1, o2, o3, by rw [← h3]; exact hsplit⟩

theorem recentMentionsOf_append (pre : List Observation) (o1 o2 o3 : Observation) :
    recentMentionsOf (pre ++ [o1, o2, o3])
      = [(o1.mentions : ℚ), (o2.mentions : ℚ), (o3.mentions : ℚ)] := by
  simp [recentMentionsOf, sliceLast, mentionsOf]

theorem slopeOf_three (y1 y2 y3 : ℚ) : slopeOf [y1, y2, y3] = (y3 - y1) / 2 := by
  simp only [slopeOf, sumXOf, sumX2Of, sumReduce, sumXYOf, List.enum, List.enumFrom,
    List.foldl, List.length]
  push_cast
  field_simp
  ring

theorem interceptOf_three (y1 y2 y3 : ℚ) :
    interceptOf [y1, y2, y3] = (4 * y1 + y2 - 2 * y3) / 3 := by
  simp only [interceptOf, slopeOf_three, sumXOf, sumReduce, List.foldl, List.length]
  push_cast
  field_simp
  ring

theorem lsqSlope_indexedPoints (y1 y2 y3 : ℚ) :
    lsqSlope (indexedPoints y1 y2 y3) = (y3 - y1) / 2 := by
  simp only [lsqSlope, listMean, indexedPoints, List.map, List.sum_cons, List.sum_nil,
    List.length]
  push_cast
  field_simp
  ring

theorem lsqIntercept_indexedPoints (y1 y2 y3 : ℚ) :
    lsqIntercept (indexedPoints y1 y2 y3) = (4 * y1 + y2 - 2 * y3) / 3 := by
  rw [lsqIntercept, lsqSlope_indexedPoints]
  simp only [listMean, indexedPoints, List.map, List.sum_cons, List.sum_nil, List.length]
  push_cast
  field_simp
  ring

/-- The squared residuals of any line exceed those of the fitted line by a
positive-definite form in the differences of slope and intercept. -/
theorem sumSquaredResiduals_split (y1 y2 y3 a b : ℚ) :
    sumSquaredResiduals (indexedPoints y1 y2 y3) a b
      = sumSquaredResiduals (indexedPoints y1 y2 y3) ((y3 - y1) / 2)
          ((4 * y1 + y2 - 2 * y3) / 3)
        + 2 * (a - (y3 - y1) / 2) ^ 2
        + 3 * ((b - (4 * y1 + y2 - 2 * y3) / 3) + 2 * (a - (y3 - y1) / 2)) ^ 2 := by
  simp only [sumSquaredResiduals, indexedPoints, List.map, List.sum_cons, List.sum_nil]
  ring

/-- C5: for a window of at least three observations, whose last three are
`o1, o2, o3`, the slope and intercept computed by `generatePredictions` have
strictly smaller sum of squared residuals on `(1, y1), (2, y2), (3, y3)` than
every other pair `(a, b)` (so they are the unique least-squares fit), and they
are the same for every window ending in `o1, o2, o3`. -/
theorem regression_is_least_squares (ts : List Observation) (hlen : 3 ≤ ts.length) :
    ∃ (pre : List Observation) (o1 o2 o3 : Observation),
      ts = pre ++ [o1, o2, o3] ∧
      (∀ a b : ℚ,
        (a, b) ≠ (slopeOf (recentMentionsOf ts), interceptOf (recentMentionsOf ts)) →
        sumSquaredResiduals (indexedPoints o1.mentions o2.mentions o3.mentions)
            (slopeOf (recentMentionsOf ts)) (interceptOf (recentMentionsOf ts))
          < sumSquaredResiduals (indexedPoints o1.mentions o2.mentions o3.mentions) a b) ∧
      (∀ pre' : List Observation,
        slopeOf (recentMentionsOf (pre' ++ [o1, o2, o3])) = slopeOf (recentMentionsOf ts) ∧
        interceptOf (recentMentionsOf (pre' ++ [o1, o2, o3]))
          = interceptOf (recentMentionsOf ts)) := by
  obtain ⟨pre, o1, o2, o3, rfl⟩ := exists_last_three ts hlen
  refine ⟨pre, o1, o2, o3, rfl, ?_, ?_⟩
  · intro a b hne
    rw [recentMentionsOf_append, slopeOf_three, interceptOf_three] at hne ⊢
    rw [sumSquaredResiduals_split (o1.mentions : ℚ) o2.mentions o3.mentions a b]
    have hda : 0 ≤ 2 * (a - ((o3.mentions : ℚ) - o1.mentions) / 2) ^ 2 := by positivity
    have hdb : 0 ≤ 3 * ((b - (4 * (o1.mentions : ℚ) + o2.mentions - 2 * o3.mentions) / 3)
        + 2 * (a - ((o3.mentions : ℚ) - o1.mentions) / 2)) ^ 2 := by positivity
    rcases hda.lt_or_eq with hpos | hzero
    · linarith
    · have ha : a = ((o3.mentions : ℚ) - o1.mentions) / 2 := by
        have h2 : (a - ((o3.mentions : ℚ) - o1.mentions) / 2) ^ 2 = 0 := by linarith
        have h3 := pow_eq_zero_iff (two_ne_zero) |>.mp h2
        linarith
      rcases hdb.lt_or_eq with hpos | hzero2
      · linarith
      · have hb : b = (4 * (o1.mentions : ℚ) + o2.mentions - 2 * o3.mentions) / 3 := by
          have h2 : ((b - (4 * (o1.mentions : ℚ) + o2.mentions - 2 * o3.mentions) / 3)
              + 2 * (a - ((o3.mentions : ℚ) - o1.mentions) / 2)) ^ 2 = 0 := by linarith
          have h3 := pow_eq_zero_iff (two_ne_zero) |>.mp h2
          rw [ha] at h3
          linarith
        exact absurd (by rw [ha, hb]) hne
  · intro pre'
    rw [recentMentionsOf_append, recentMentionsOf_append]
    exact ⟨rfl, rfl⟩

/-- Witness of C5 on the window with mentions 5, 10, 20, 40. -/
theorem regression_is_least_squares_witness :
    ∃ (pre : List Observation) (o1 o2 o3 : Observation),
      [obs 0 5, obs 1 10, obs 2 20, obs 3 40] = pre ++ [o1, o2, o3] ∧
      (∀ a b : ℚ,
        (a, b) ≠ (slopeOf (recentMentionsOf [obs 0 5, obs 1 10, obs 2 20, obs 3 40]),
          interceptOf (recentMentionsOf [obs 0 5, obs 1 10, obs 2 20, obs 3 40])) →
        sumSquaredResiduals (indexedPoints o1.mentions o2.mentions o3.mentions)
            (slopeOf (recentMentionsOf [obs 0 5, obs 1 10, obs 2 20, obs 3 40]))
            (interceptOf (recentMentionsOf [obs 0 5, obs 1 10, obs 2 20, obs 3 40]))
          < sumSquaredResiduals (indexedPoints o1.mentions o2.mentions o3.mentions) a b) ∧
      (∀ pre' : List Observation,
        slopeOf (recentMentionsOf (pre' ++ [o1, o2, o3]))
          = slopeOf (recentMentionsOf [obs 0 5, obs 1 10, obs 2 20, obs 3 40]) ∧
        interceptOf (recentMentionsOf (pre' ++ [o1, o2, o3]))
          = interceptOf (recentMentionsOf [obs 0 5, obs 1 10, obs 2 20, obs 3 40])) :=
  regression_is_least_squares [obs 0 5, obs 1 10, obs 2 20, obs 3 40] (by decide)

/-! ## Predictions: forecasts and confidences -/

theorem recentMentionsOf_length (pre : List Observation) (o1 o2 o3 : Observation) :
    ((recentMentionsOf (pre ++ [o1, o2, o3])).length : ℚ) = 3 := by
  rw [recentMentionsOf_append]
  norm_num

/-- The code's `Math.min(hi, Math.max(lo, x))` is `clamp(x, lo, hi)` when `lo ≤ hi`. -/
theorem min_max_eq_clamp (x lo hi : ℚ) (h : lo ≤ hi) : min hi (max lo x) = clamp x lo hi := by
  unfold clamp
  rcases le_total x lo with h1 | h1
  · rw [max_eq_left h1, min_eq_right h, min_eq_left (le_trans h1 h), max_eq_left h1]
  · rw [max_eq_right h1]
    rcases le_total x hi with h2 | h2
    · rw [min_eq_right h2, min_eq_left h2, max_eq_right h1]
    · rw [min_eq_left h2, min_eq_right h2, max_eq_right h]

/-- C6: for a window of at least three observations, whose last three are
`o1, o2, o3`, the forecasts are `max(0, round(slope * 4 + intercept))` and
`max(0, round(slope * 10 + intercept))` with `slope`, `intercept` the
least-squares fit of their mention counts against the indices 1, 2, 3. -/
theorem predictions_from_fit (ts : List Observation) (hlen : 3 ≤ ts.length) :
    ∃ (pre : List Observation) (o1 o2 o3 : Observation),
      ts = pre ++ [o1, o2, o3] ∧
      (generatePredictions ts).next_24h.mentions_prediction
        = max 0 (jsRound
            (lsqSlope (indexedPoints o1.mentions o2.mentions o3.mentions) * 4
              + lsqIntercept (indexedPoints o1.mentions o2.mentions o3.mentions))) ∧
      (generatePredictions ts).next_week.mentions_prediction
        = max 0 (jsRound
            (lsqSlope (indexedPoints o1.mentions o2.mentions o3.mentions) * 10
              + lsqIntercept (indexedPoints o1.mentions o2.mentions o3.mentions))) := by
  have hguard : ¬ ts.length < 3 := by omega
  obtain ⟨pre, o1, o2, o3, rfl⟩ := exists_last_three ts hlen
  refine ⟨pre, o1, o2, o3, rfl, ?_, ?_⟩
  · simp only [generatePredictions, hguard, if_false, recentMentionsOf_length]
    rw [recentMentionsOf_append, slopeOf_three, interceptOf_three,
      lsqSlope_indexedPoints, lsqIntercept_indexedPoints]
    norm_num
  · simp only [generatePredictions, hguard, if_false, recentMentionsOf_length]
    rw [recentMentionsOf_append, slopeOf_three, interceptOf_three,
      lsqSlope_indexedPoints, lsqIntercept_indexedPoints]
    norm_num

/-- Witness of C6 on the window with mentions 5, 10, 20, 40. -/
theorem predictions_from_fit_witness :
    ∃ (pre : List Observation) (o1 o2 o3 : Observation),
      [obs 0 5, obs 1 10, obs 2 20, obs 3 40] = pre ++ [o1, o2, o3] ∧
      (generatePredictions [obs 0 5, obs 1 10, obs 2 20, obs 3 40]).next_24h.mentions_prediction
        = max 0 (jsRound
            (lsqSlope (indexedPoints o1.mentions o2.mentions o3.mentions) * 4
              + lsqIntercept (indexedPoints o1.mentions o2.mentions o3.mentions))) ∧
      (generatePredictions [obs 0 5, obs 1 10, obs 2 20, obs 3 40]).next_week.mentions_prediction
        = max 0 (jsRound
            (lsqSlope (indexedPoints o1.mentions o2.mentions o3.mentions) * 10
              + lsqIntercept (indexedPoints o1.mentions o2.mentions o3.mentions))) :=
  predictions_from_fit [obs 0 5, obs 1 10, obs 2 20, obs 3 40] (by decide)

theorem slope_example : slopeOf (recentMentionsOf [obs 0 10, obs 1 20, obs 2 40]) = 15 := by
  rw [show [obs 0 10, obs 1 20, obs 2 40] = [] ++ [obs 0 10, obs 1 20, obs 2 40] from rfl,
    recentMentionsOf_append, slopeOf_three]
  norm_num [obs]

theorem intercept_example :
    interceptOf (recentMentionsOf [obs 0 10, obs 1 20, obs 2 40]) = -20 / 3 := by
  rw [show [obs 0 10, obs 1 20, obs 2 40] = [] ++ [obs 0 10, obs 1 20, obs 2 40] from rfl,
    recentMentionsOf_append, interceptOf_three]
  norm_num [obs]

theorem next24h_example :
    (generatePredictions [obs 0 10, obs 1 20, obs 2 40]).next_24h.mentions_prediction = 53 := by
  have hguard : ¬ [obs 0 10, obs 1 20, obs 2 40].length < 3 := by decide
  have hn : ((recentMentionsOf [obs 0 10, obs 1 20, obs 2 40]).length : ℚ) = 3 :=
    recentMentionsOf_length [] (obs 0 10) (obs 1 20) (obs 2 40)
  simp only [generatePredictions, hguard, if_false, hn, slope_example, intercept_example]
  have hr : jsRound (15 * (3 + 1) + -20 / 3) = 53 := by
    rw [jsRound_eq_iff]
    constructor <;> norm_num
  rw [hr]
  rfl

/-- Counterexample to C7 as stated: on the window with mentions 10, 20, 40 the
fitted intercept is -20/3 (-6.67 to two decimals, not -8.33) and the returned
`next_24h.mentions_prediction` is 53, not 52. -/
theorem example_prediction_counterexample :
    round2 (interceptOf (recentMentionsOf [obs 0 10, obs 1 20, obs 2 40])) ≠ -833 / 100 ∧
    (generatePredictions [obs 0 10, obs 1 20, obs 2 40]).next_24h.mentions_prediction ≠ 52 := by
  constructor
  · rw [intercept_example]
    have hr : jsRound (-20 / 3 * 100) = -667 := by
      rw [jsRound_eq_iff]
      constructor <;> norm_num
    rw [round2, hr]
    norm_num
  · rw [next24h_example]
    decide

/-- C7 (amended): on the window with mentions 10, 20, 40 the fitted slope is 15,
the fitted intercept is -20/3, which is -6.67 to two decimals, and the returned
`next_24h.mentions_prediction` is 53 (`round(15 * 4 - 6.67) = round(53.33)`). -/
theorem example_prediction :
    slopeOf (recentMentionsOf [obs 0 10, obs 1 20, obs 2 40]) = 15 ∧
    interceptOf (recentMentionsOf [obs 0 10, obs 1 20, obs 2 40]) = -20 / 3 ∧
    round2 (interceptOf (recentMentionsOf [obs 0 10, obs 1 20, obs 2 40])) = -667 / 100 ∧
    (generatePredictions [obs 0 10, obs 1 20, obs 2 40]).next_24h.mentions_prediction = 53 := by
  refine ⟨slope_example, intercept_example, ?_, next24h_example⟩
  rw [intercept_example]
  have hr : jsRound (-20 / 3 * 100) = -667 := by
    rw [jsRound_eq_iff]
    constructor <;> norm_num
  rw [round2, hr]
  norm_num

theorem confidence24h_eq (ts : List Observation) (hlen : 3 ≤ ts.length) :
    (generatePredictions ts).next_24h.confidence
      = round2 (min (9 / 10 : ℚ) (max (1 / 10) (1 - |slopeOf (recentMentionsOf ts)| / 100))) := by
  have hguard : ¬ ts.length < 3 := by omega
  simp only [generatePredictions, hguard, if_false]

theorem confidenceWeek_eq (ts : List Observation) (hlen : 3 ≤ ts.length) :
    (generatePredictions ts).next_week.confidence
      = round2 (min (7 / 10 : ℚ) (max (1 / 10) (1 - |slopeOf (recentMentionsOf ts)| / 50))) := by
  have hguard : ¬ ts.length < 3 := by omega
  simp only [generatePredictions, hguard, if_false]

/-- Counterexample to C8 as stated: for the empty window both confidences are
0, below the lower bound 0.1. -/
theorem confidence_bounds_counterexample :
    (generatePredictions []).next_24h.confidence = 0 ∧
    (generatePredictions []).next_week.confidence = 0 ∧
    ¬ ((1 / 10 : ℚ) ≤ (generatePredictions []).next_24h.confidence) ∧
    ¬ ((1 / 10 : ℚ) ≤ (generatePredictions []).next_week.confidence) := by
  have h : generatePredictions [] =
      { next_24h := { mentions_prediction := 0, confidence := 0 },
        next_week := { mentions_prediction := 0, confidence := 0 } } := by
    simp [generatePredictions]
  rw [h]
  norm_num

/-- C8 (amended): for every window with at least three observations,
`next_24h.confidence` lies in `[0.1, 0.9]` and `next_week.confidence` lies in
`[0.1, 0.7]`. -/
theorem confidence_bounds (ts : List Observation) (hlen : 3 ≤ ts.length) :
    ((1 / 10 : ℚ) ≤ (generatePredictions ts).next_24h.confidence ∧
      (generatePredictions ts).next_24h.confidence ≤ 9 / 10) ∧
    ((1 / 10 : ℚ) ≤ (generatePredictions ts).next_week.confidence ∧
      (generatePredictions ts).next_week.confidence ≤ 7 / 10) := by
  rw [confidence24h_eq ts hlen, confidenceWeek_eq ts hlen]
  refine ⟨⟨?_, ?_⟩, ⟨?_, ?_⟩⟩
  · have h := le_round2
      (min (9 / 10 : ℚ) (max (1 / 10) (1 - |slopeOf (recentMentionsOf ts)| / 100))) 10
      (by push_cast; exact le_min (by norm_num) (le_trans (by norm_num) (le_max_left _ _)))
    push_cast at h
    linarith
  · have h := round2_le
      (min (9 / 10 : ℚ) (max (1 / 10) (1 - |slopeOf (recentMentionsOf ts)| / 100))) 90
      (by push_cast; exact le_trans (min_le_left _ _) (by norm_num))
    push_cast at h
    linarith
  · have h := le_round2
      (min (7 / 10 : ℚ) (max (1 / 10) (1 - |slopeOf (recentMentionsOf ts)| / 50))) 10
      (by push_cast; exact le_min (by norm_num) (le_trans (by norm_num) (le_max_left _ _)))
    push_cast at h
    linarith
  · have h := round2_le
      (min (7 / 10 : ℚ) (max (1 / 10) (1 - |slopeOf (recentMentionsOf ts)| / 50))) 70
      (by push_cast; exact le_trans (min_le_left _ _) (by norm_num))
    push_cast at h
    linarith

/-- Witness of C8 on a steeply falling window (mentions 900, 400, 0). -/
theorem confidence_bounds_witness :
    ((1 / 10 : ℚ) ≤ (generatePredictions [obs 0 900, obs 1 400, obs 2 0]).next_24h.confidence ∧
      (generatePredictions [obs 0 900, obs 1 400, obs 2 0]).next_24h.confidence ≤ 9 / 10) ∧
    ((1 / 10 : ℚ) ≤ (generatePredictions [obs 0 900, obs 1 400, obs 2 0]).next_week.confidence ∧
      (generatePredictions [obs 0 900, obs 1 400, obs 2 0]).next_week.confidence ≤ 7 / 10) :=
  confidence_bounds [obs 0 900, obs 1 400, obs 2 0] (by decide)

/-- C9: for every window of at least three observations, whose last three are
`o1, o2, o3`, `next_24h.confidence` is `clamp(1 - |slope|/100, 0.1, 0.9)` and
`next_week.confidence` is `clamp(1 - |slope|/50, 0.1, 0.7)`, each rounded to two
decimals, with `slope` the least-squares slope of their mention counts; on the
window with mentions 10, 20, 40 the 24h confidence is 0.85. -/
theorem confidence_formula :
    (∀ ts : List Observation, 3 ≤ ts.length →
      ∃ (pre : List Observation) (o1 o2 o3 : Observation),
        ts = pre ++ [o1, o2, o3] ∧
        (generatePredictions ts).next_24h.confidence
          = round2 (clamp
              (1 - |lsqSlope (indexedPoints o1.mentions o2.mentions o3.mentions)| / 100)
              (1 / 10) (9 / 10)) ∧
        (generatePredictions ts).next_week.confidence
          = round2 (clamp
              (1 - |lsqSlope (indexedPoints o1.mentions o2.mentions o3.mentions)| / 50)
              (1 / 10) (7 / 10))) ∧
    (generatePredictions [obs 0 10, obs 1 20, obs 2 40]).next_24h.confidence = 85 / 100 := by
  constructor
  · intro ts hlen
    obtain ⟨pre, o1, o2, o3, rfl⟩ := exists_last_three ts hlen
    refine ⟨pre, o1, o2, o3, rfl, ?_, ?_⟩
    · rw [confidence24h_eq _ hlen, min_max_eq_clamp _ _ _ (by norm_num),
        recentMentionsOf_append, slopeOf_three, lsqSlope_indexedPoints]
    · rw [confidenceWeek_eq _ hlen, min_max_eq_clamp _ _ _ (by norm_num),
        recentMentionsOf_append, slopeOf_three, lsqSlope_indexedPoints]
  · rw [confidence24h_eq _ (by decide), slope_example]
    have habs : |(15 : ℚ)| = 15 := abs_of_nonneg (by norm_num)
    rw [habs]
    have hc : min (9 / 10 : ℚ) (max (1 / 10) (1 - 15 / 100)) = 85 / 100 := by
      rw [max_eq_right (by norm_num), min_eq_right (by norm_num)]
      norm_num
    rw [hc, round2]
    have hr : jsRound (85 / 100 * 100) = 85 := by
      rw [jsRound_eq_iff]
      constructor <;> norm_num
    rw [hr]
    norm_num

/-- Witness of C9 on the window with mentions 5, 10, 20, 40. -/
theorem confidence_formula_witness :
    ∃ (pre : List Observation) (o1 o2 o3 : Observation),
      [obs 0 5, obs 1 10, obs 2 20, obs 3 40] = pre ++ [o1, o2, o3] ∧
      (generatePredictions [obs 0 5, obs 1 10, obs 2 20, obs 3 40]).next_24h.confidence
        = round2 (clamp
            (1 - |lsqSlope (indexedPoints o1.mentions o2.mentions o3.mentions)| / 100)
            (1 / 10) (9 / 10)) ∧
      (generatePredictions [obs 0 5, obs 1 10, obs 2 20, obs 3 40]).next_week.confidence
        = round2 (clamp
            (1 - |lsqSlope (indexedPoints o1.mentions o2.mentions o3.mentions)| / 50)
            (1 / 10) (7 / 10)) :=
  confidence_formula.1 [obs 0 5, obs 1 10, obs 2 20, obs 3 40] (by decide)

/-- C10: for every window with fewer than three observations
`generatePredictions` returns `mentions_prediction = 0` and `confidence = 0` for
both horizons; the function is total, so no error is raised. -/
theorem predictions_degenerate (ts : List Observation) (hlen : ts.length < 3) :
    generatePredictions ts =
      { next_24h := { mentions_prediction := 0, confidence := 0 },
        next_week := { mentions_prediction := 0, confidence := 0 } } := by
  simp only [generatePredictions, hlen, if_true]

/-- Witness of C10 on a window of two observations. -/
theorem predictions_degenerate_witness :
    [obs 0 7, obs 1 9000].length < 3 ∧
    generatePredictions [obs 0 7, obs 1 9000] =
      { next_24h := { mentions_prediction := 0, confidence := 0 },
        next_week := { mentions_prediction := 0, confidence := 0 } } :=
  ⟨by decide, predictions_degenerate [obs 0 7, obs 1 9000] (by decide)⟩

/-! ## Predictions are never negative -/

/-- C11: for every window (its mention counts are whole numbers), both
`next_24h.mentions_prediction` and `next_week.mentions_prediction` are
non-negative integers: each equals some natural number; on the steeply falling
window 900, 400, 0 (slope -450) both are 0. -/
theorem predictions_nonneg (ts : List Observation) :
    (∃ k : ℕ, (generatePredictions ts).next_24h.mentions_prediction = (k : ℤ)) ∧
    (∃ k : ℕ, (generatePredictions ts).next_week.mentions_prediction = (k : ℤ)) ∧
    slopeOf (recentMentionsOf [obs 0 900, obs 1 400, obs 2 0]) = -450 ∧
    (generatePredictions [obs 0 900, obs 1 400, obs 2 0]).next_24h.mentions_prediction = 0 ∧
    (generatePredictions [obs 0 900, obs 1 400, obs 2 0]).next_week.mentions_prediction = 0 := by
  have hnn : 0 ≤ (generatePredictions ts).next_24h.mentions_prediction ∧
      0 ≤ (generatePredictions ts).next_week.mentions_prediction := by
    by_cases hshort : ts.length < 3
    · simp only [generatePredictions, hshort, if_true]
      exact ⟨le_refl _, le_refl _⟩
    · simp only [generatePredictions, hshort, if_false]
      exact ⟨le_max_left _ _, le_max_left _ _⟩
  have hslope : slopeOf (recentMentionsOf [obs 0 900, obs 1 400, obs 2 0]) = -450 := by
    rw [show [obs 0 900, obs 1 400, obs 2 0] = [] ++ [obs 0 900, obs 1 400, obs 2 0] from rfl,
      recentMentionsOf_append, slopeOf_three]
    norm_num [obs]
  have hicpt : interceptOf (recentMentionsOf [obs 0 900, obs 1 400, obs 2 0]) = 4000 / 3 := by
    rw [show [obs 0 900, obs 1 400, obs 2 0] = [] ++ [obs 0 900, obs 1 400, obs 2 0] from rfl,
      recentMentionsOf_append, interceptOf_three]
    norm_num [obs]
  have hguard : ¬ [obs 0 900, obs 1 400, obs 2 0].length < 3 := by decide
  have hn : ((recentMentionsOf [obs 0 900, obs 1 400, obs 2 0]).length : ℚ) = 3 :=
    recentMentionsOf_length [] (obs 0 900) (obs 1 400) (obs 2 0)
  refine ⟨⟨_, (Int.toNat_of_nonneg hnn.1).symm⟩, ⟨_, (Int.toNat_of_nonneg hnn.2).symm⟩,
    hslope, ?_, ?_⟩
  · simp only [generatePredictions, hguard, if_false, hn, hslope, hicpt]
    apply max_eq_left
    have h := (jsRound_lt_iff (-450 * (3 + 1) + 4000 / 3) 1).mpr (by norm_num)
    omega
  · simp only [generatePredictions, hguard, if_false, hn, hslope, hicpt]
    apply max_eq_left
    have h := (jsRound_lt_iff (-450 * (3 + 7) + 4000 / 3) 1).mpr (by norm_num)
    omega

/-! ## `calculateGrowthRate` against `calculateTrendMetrics` -/

/-- Counterexample to C12 as stated: on the window with mentions 0, 5 the growth
ranker's `calculateGrowthRate` gives 100 while `calculateTrendMetrics` returns
`growthRate = 0`. -/
theorem growthRate_agreement_counterexample :
    calculateGrowthRate [obs 0 0, obs 1 5] = 100 ∧
    ∀ sqrt : ℚ → ℚ,
      (calculateTrendMetrics sqrt [obs 0 0, obs 1 5]).growthRate = 0 ∧
      calculateGrowthRate [obs 0 0, obs 1 5]
        ≠ (calculateTrendMetrics sqrt [obs 0 0, obs 1 5]).growthRate := by
  have h1 : calculateGrowthRate [obs 0 0, obs 1 5] = 100 := by
    norm_num [calculateGrowthRate, mentionsOf, obs]
  have h2 : ∀ sqrt : ℚ → ℚ, (calculateTrendMetrics sqrt [obs 0 0, obs 1 5]).growthRate = 0 := by
    intro sqrt
    norm_num [calculateTrendMetrics, rawGrowthRate, mentionsOf, obs, round2, jsRound]
  refine ⟨h1, fun sqrt => ⟨h2 sqrt, ?_⟩⟩
  rw [h1, h2 sqrt]
  norm_num

/-- C12 (amended): `calculateGrowthRate` and the `growthRate` of
`calculateTrendMetrics` agree on every window with fewer than two observations
and on every longer window whose first observation has `mentions > 0` or whose
last observation has `mentions = 0`; on a window of at least two observations
with `first.mentions = 0` and `last.mentions > 0` the former is 100 and the
latter 0. -/
theorem growthRate_agreement (sqrt : ℚ → ℚ) (ts : List Observation) :
    (ts.length < 2 →
      calculateGrowthRate ts = (calculateTrendMetrics sqrt ts).growthRate) ∧
    (∀ first last : Observation, 2 ≤ ts.length →
      ts.head? = some first → ts.getLast? = some last →
      ((0 < first.mentions ∨ last.mentions = 0) →
        calculateGrowthRate ts = (calculateTrendMetrics sqrt ts).growthRate) ∧
      (first.mentions = 0 → 0 < last.mentions →
        calculateGrowthRate ts = 100 ∧ (calculateTrendMetrics sqrt ts).growthRate = 0)) := by
  constructor
  · intro hshort
    simp only [calculateGrowthRate, calculateTrendMetrics, hshort, if_true]
  · intro first last hlen hfirst hlast
    have hguard : ¬ ts.length < 2 := by omega
    have h0 := mentionsOf_getD_first ts first hfirst
    have h1 := mentionsOf_getD_last ts last hlast
    have hg : calculateGrowthRate ts =
        if (first.mentions : ℚ) = 0 then (if (last.mentions : ℚ) > 0 then 100 else 0)
        else (jsRound ((((last.mentions : ℚ) - first.mentions) / first.mentions) * 100 * 100) : ℚ)
          / 100 := by
      simp only [calculateGrowthRate, hguard, if_false, h0, h1]
    have ht : (calculateTrendMetrics sqrt ts).growthRate =
        round2 (if (first.mentions : ℚ) > 0
          then (((last.mentions : ℚ) - first.mentions) / first.mentions) * 100 else 0) := by
      simp only [calculateTrendMetrics, hguard, if_false, rawGrowthRate, h0, h1]
    have hround0 : round2 0 = 0 := by norm_num [round2, jsRound]
    constructor
    · rintro (hpos | hzero)
      · have hq : (0 : ℚ) < (first.mentions : ℚ) := by exact_mod_cast hpos
        rw [hg, ht, if_neg (ne_of_gt hq), if_pos hq, round2]
      · have hl : (last.mentions : ℚ) = 0 := by exact_mod_cast hzero
        rcases Nat.eq_zero_or_pos first.mentions with hf | hf
        · have hf' : (first.mentions : ℚ) = 0 := by exact_mod_cast hf
          rw [hg, ht, hf', hl]
          norm_num [hround0]
        · have hq : (0 : ℚ) < (first.mentions : ℚ) := by exact_mod_cast hf
          rw [hg, ht, if_neg (ne_of_gt hq), if_pos hq, round2]
    · intro hf hl
      have hf' : (first.mentions : ℚ) = 0 := by exact_mod_cast hf
      have hl' : (0 : ℚ) < (last.mentions : ℚ) := by exact_mod_cast hl
      rw [hg, ht, hf']
      norm_num [hround0, hl']

/-- Witness of C12 on the window with mentions 100, 150, 90. -/
theorem growthRate_agreement_witness :
    calculateGrowthRate [obs 0 100, obs 1 150, obs 2 90]
      = (calculateTrendMetrics sqrtFloor [obs 0 100, obs 1 150, obs 2 90]).growthRate :=
  ((growthRate_agreement sqrtFloor [obs 0 100, obs 1 150, obs 2 90]).2 (obs 0 100) (obs 2 90)
    (by decide) rfl rfl).1 (Or.inl (by decide))

/-! ## The growth ranking -/

/-- The order used by `jsSort` for a comparator of the form `key a - key b`
is transitive. -/
theorem sortLE_trans {α : Type} (key : α → ℚ) (a b c : α)
    (hab : decide (key a - key b ≤ 0) = true) (hbc : decide (key b - key c ≤ 0) = true) :
    decide (key a - key c ≤ 0) = true := by
  simp only [decide_eq_true_eq] at hab hbc ⊢
  linarith

/-- The order used by `jsSort` for a comparator of the form `key a - key b`
is total. -/
theorem sortLE_total {α : Type} (key : α → ℚ) (a b : α) :
    (decide (key a - key b ≤ 0) || decide (key b - key a ≤ 0)) = true := by
  simp only [Bool.or_eq_true, decide_eq_true_eq]
  rcases le_total (key a) (key b) with h | h
  · left
    linarith
  · right
    linarith

theorem mem_jsSort {α : Type} (compare : α → α → ℚ) (xs : List α) (x : α) :
    x ∈ jsSort compare xs ↔ x ∈ xs :=
  (List.mergeSort_perm xs _).mem_iff

theorem jsSort_sorted {α : Type} (key : α → ℚ) (xs : List α) :
    (jsSort (fun a b => key a - key b) xs).Pairwise (fun a b => key a ≤ key b) := by
  have h : (jsSort (fun a b => key a - key b) xs).Pairwise
      (fun a b => decide (key a - key b ≤ 0) = true) :=
    List.sorted_mergeSort (sortLE_trans key) (sortLE_total key) xs
  refine h.imp ?_
  intro a b hab
  simp only [decide_eq_true_eq] at hab
  linarith

/-- Stability of `jsSort`: the elements with one given key keep the order they
have in the input. -/
theorem jsSort_filter_key {α : Type} (key : α → ℚ) (k : ℚ) (xs : List α) :
    (jsSort (fun a b => key a - key b) xs).filter (fun x => decide (key x = k))
      = xs.filter (fun x => decide (key x = k)) := by
  have hpair : (xs.filter (fun x => decide (key x = k))).Pairwise
      (fun a b => decide (key a - key b ≤ 0) = true) := by
    rw [List.pairwise_iff_forall_sublist]
    intro a b hab
    have ha : a ∈ xs.filter (fun x => decide (key x = k)) := hab.subset (by simp)
    have hb : b ∈ xs.filter (fun x => decide (key x = k)) := hab.subset (by simp)
    simp only [List.mem_filter, decide_eq_true_eq] at ha hb
    simp only [decide_eq_true_eq]
    rw [ha.2, hb.2]
    norm_num
  have hsub : List.Sublist (xs.filter (fun x => decide (key x = k)))
      (jsSort (fun a b => key a - key b) xs) :=
    List.sublist_mergeSort (sortLE_trans key) (sortLE_total key) hpair (List.filter_sublist xs)
  have hsub2 := hsub.filter (fun x => decide (key x = k))
  rw [List.filter_filter] at hsub2
  simp only [Bool.and_self] at hsub2
  have hperm : ((jsSort (fun a b => key a - key b) xs).filter
      (fun x => decide (key x = k))).Perm (xs.filter (fun x => decide (key x = k))) :=
    (List.mergeSort_perm xs _).filter _
  exact (hsub2.eq_of_length hperm.length_eq.symm).symm

theorem fastestGrowingOf_eq (growthData : List GrowthEntry) :
    fastestGrowingOf growthData
      = (jsSort (fun a b => (fun e : GrowthEntry => -e.growthRate) a
            - (fun e : GrowthEntry => -e.growthRate) b)
          (growthData.filter (fun item => decide (item.growthRate > 0)))).take 10 := by
  unfold fastestGrowingOf
  have hcmp : (fun a b : GrowthEntry => b.growthRate - a.growthRate)
      = (fun a b => (fun e : GrowthEntry => -e.growthRate) a
            - (fun e : GrowthEntry => -e.growthRate) b) := by
    funext a b
    ring
  rw [hcmp]

theorem mem_fastestGrowingOf (growthData : List GrowthEntry) (e : GrowthEntry)
    (h : e ∈ fastestGrowingOf growthData) : e ∈ growthData ∧ 0 < e.growthRate := by
  have h1 := List.mem_of_mem_take h
  rw [mem_jsSort, List.mem_filter] at h1
  exact ⟨h1.1, by simpa using h1.2⟩

theorem mem_decliningOf (growthData : List GrowthEntry) (e : GrowthEntry)
    (h : e ∈ decliningOf growthData) : e ∈ growthData ∧ e.growthRate < 0 := by
  have h1 := List.mem_of_mem_take h
  rw [mem_jsSort, List.mem_filter] at h1
  exact ⟨h1.1, by simpa using h1.2⟩

/-- C13: `fastestGrowing` holds only entries of the input with `growthRate > 0`,
is sorted by `growthRate` in non-increasing order and has at most 10 entries;
`declining` holds only entries of the input with `growthRate < 0`, is sorted by
`growthRate` in non-decreasing order and has at most 10 entries. -/
theorem ranking_lists (growthData : List GrowthEntry) :
    ((∀ e ∈ fastestGrowingOf growthData, e ∈ growthData ∧ 0 < e.growthRate) ∧
      (fastestGrowingOf growthData).Pairwise (fun a b => b.growthRate ≤ a.growthRate) ∧
      (fastestGrowingOf growthData).length ≤ 10) ∧
    ((∀ e ∈ decliningOf growthData, e ∈ growthData ∧ e.growthRate < 0) ∧
      (decliningOf growthData).Pairwise (fun a b => a.growthRate ≤ b.growthRate) ∧
      (decliningOf growthData).length ≤ 10) := by
  refine ⟨⟨fun e he => mem_fastestGrowingOf growthData e he, ?_, ?_⟩,
    ⟨fun e he => mem_decliningOf growthData e he, ?_, ?_⟩⟩
  · rw [fastestGrowingOf_eq]
    refine ((jsSort_sorted (fun e : GrowthEntry => -e.growthRate) _).sublist
      (List.take_sublist _ _)).imp ?_
    intro a b hab
    linarith
  · unfold fastestGrowingOf
    exact List.length_take_le _ _
  · unfold decliningOf
    exact (jsSort_sorted (fun e : GrowthEntry => e.growthRate) _).sublist
      (List.take_sublist _ _)
  · unfold decliningOf
    exact List.length_take_le _ _

theorem calculateGrowthRate_short (ts : List Observation) (h : ts.length < 2) :
    calculateGrowthRate ts = 0 := by
  simp only [calculateGrowthRate, h, if_true]

/-- C14: no entry appears in both `fastestGrowing` and `declining`; no entry
whose `growthRate` is exactly 0 appears in either list; and an entry built by
`GET /growth` from a document whose window has fewer than two observations has
`growthRate = 0` and is in neither list of the response. -/
theorem ranking_disjoint (growthData : List GrowthEntry) :
    (∀ e, e ∈ fastestGrowingOf growthData → e ∉ decliningOf growthData) ∧
    (∀ e : GrowthEntry, e.growthRate = 0 →
      e ∉ fastestGrowingOf growthData ∧ e ∉ decliningOf growthData) ∧
    (∀ (now days : Int) (hashtags : List HashtagDoc) (doc : HashtagDoc),
      (windowOf (cutoffDate now days) doc.time_series).length < 2 →
      (growthEntryOf now days doc).growthRate = 0 ∧
      growthEntryOf now days doc ∉ (growthRoute now days hashtags).fastestGrowing ∧
      growthEntryOf now days doc ∉ (growthRoute now days hashtags).declining) := by
  refine ⟨?_, ?_, ?_⟩
  · intro e hf hd
    have h1 := (mem_fastestGrowingOf growthData e hf).2
    have h2 := (mem_decliningOf growthData e hd).2
    linarith
  · intro e he
    constructor
    · intro hf
      have h1 := (mem_fastestGrowingOf growthData e hf).2
      linarith
    · intro hd
      have h2 := (mem_decliningOf growthData e hd).2
      linarith
  · intro now days hashtags doc hshort
    have hz : (growthEntryOf now days doc).growthRate = 0 := by
      simp only [growthEntryOf]
      exact calculateGrowthRate_short _ hshort
    refine ⟨hz, ?_, ?_⟩
    · intro hf
      have h1 := (mem_fastestGrowingOf _ _ hf).2
      linarith
    · intro hd
      have h2 := (mem_decliningOf _ _ hd).2
      linarith

theorem filter_neg_key (k : ℚ) (xs : List GrowthEntry) :
    xs.filter (fun x => decide ((fun e : GrowthEntry => -e.growthRate) x = -k))
      = xs.filter (fun x => decide (x.growthRate = k)) := by
  congr 1
  funext x
  simp only [neg_inj]

/-- Entries of growth rate `k` in `fastestGrowing`: an initial segment of those
in the input, in input order. -/
theorem fastestGrowingOf_filter_rate (growthData : List GrowthEntry) (k : ℚ) :
    List.IsPrefix ((fastestGrowingOf growthData).filter (fun x => decide (x.growthRate = k)))
      (growthData.filter (fun x => decide (x.growthRate = k))) := by
  have hpre : List.IsPrefix
      ((fastestGrowingOf growthData).filter (fun x => decide (x.growthRate = k)))
      ((growthData.filter (fun item => decide (item.growthRate > 0))).filter
        (fun x => decide (x.growthRate = k))) := by
    have hs := jsSort_filter_key (fun e : GrowthEntry => -e.growthRate) (-k)
      (growthData.filter (fun item => decide (item.growthRate > 0)))
    have hp := List.IsPrefix.filter
      (fun x => decide ((fun e : GrowthEntry => -e.growthRate) x = -k))
      ( List.take_prefix 10 (jsSort (fun a b => (fun e : GrowthEntry => -e.growthRate) a
            - (fun e : GrowthEntry => -e.growthRate) b)
          (growthData.filter (fun item => decide (item.growthRate > 0)))))
    rw [hs, filter_neg_key, filter_neg_key, ← fastestGrowingOf_eq] at hp
    exact hp
  by_cases hk : 0 < k
  · have heq : (growthData.filter (fun item => decide (item.growthRate > 0))).filter
        (fun x => decide (x.growthRate = k))
        = growthData.filter (fun x => decide (x.growthRate = k)) := by
      rw [List.filter_filter]
      congr 1
      funext x
      by_cases hx : x.growthRate = k
      · simp [hx, hk]
      · simp [hx]
    rw [heq] at hpre
    exact hpre
  · have hnil : (growthData.filter (fun item => decide (item.growthRate > 0))).filter
        (fun x => decide (x.growthRate = k)) = [] := by
      rw [List.filter_eq_nil_iff]
      intro x hx
      have hpos : 0 < x.growthRate := by simpa using (List.mem_filter.mp hx).2
      simp only [decide_eq_true_eq]
      intro hxk
      exact hk (hxk ▸ hpos)
    rw [hnil] at hpre
    rw [ List.prefix_nil.mp hpre]
    exact List.nil_prefix

/-- Entries of growth rate `k` in `declining`: an initial segment of those in
the input, in input order. -/
theorem decliningOf_filter_rate (growthData : List GrowthEntry) (k : ℚ) :
    List.IsPrefix ((decliningOf growthData).filter (fun x => decide (x.growthRate = k)))
      (growthData.filter (fun x => decide (x.growthRate = k))) := by
  have hpre : List.IsPrefix
      ((decliningOf growthData).filter (fun x => decide (x.growthRate = k)))
      ((growthData.filter (fun item => decide (item.growthRate < 0))).filter
        (fun x => decide (x.growthRate = k))) := by
    have hs := jsSort_filter_key (fun e : GrowthEntry => e.growthRate) k
      (growthData.filter (fun item => decide (item.growthRate < 0)))
    have hp := List.IsPrefix.filter (fun x : GrowthEntry => decide (x.growthRate = k))
      ( List.take_prefix 10 (jsSort (fun a b : GrowthEntry => a.growthRate - b.growthRate)
          (growthData.filter (fun item => decide (item.growthRate < 0)))))
    rw [hs] at hp
    exact hp
  by_cases hk : k < 0
  · have heq : (growthData.filter (fun item => decide (item.growthRate < 0))).filter
        (fun x => decide (x.growthRate = k))
        = growthData.filter (fun x => decide (x.growthRate = k)) := by
      rw [List.filter_filter]
      congr 1
      funext x
      by_cases hx : x.growthRate = k
      · simp [hx, hk]
      · simp [hx]
    rw [heq] at hpre
    exact hpre
  · have hnil : (growthData.filter (fun item => decide (item.growthRate < 0))).filter
        (fun x => decide (x.growthRate = k)) = [] := by
      rw [List.filter_eq_nil_iff]
      intro x hx
      have hneg : x.growthRate < 0 := by simpa using (List.mem_filter.mp hx).2
      simp only [decide_eq_true_eq]
      intro hxk
      exact hk (hxk ▸ hneg)
    rw [hnil] at hpre
    rw [ List.prefix_nil.mp hpre]
    exact List.nil_prefix

/-- A pair of entries of equal growth rate that is in order in a list whose
entries of that rate are an initial segment of the input's is in order in the
input. -/
theorem pair_sublist_of_filter_initial (out growthData : List GrowthEntry) (a b : GrowthEntry)
    (hab : a.growthRate = b.growthRate)
    (hpre : List.IsPrefix (out.filter (fun x => decide (x.growthRate = a.growthRate)))
      (growthData.filter (fun x => decide (x.growthRate = a.growthRate))))
    (h : List.Sublist [a, b] out) : List.Sublist [a, b] growthData := by
  have hf := h.filter (fun x => decide (x.growthRate = a.growthRate))
  have hpair : [a, b].filter (fun x => decide (x.growthRate = a.growthRate)) = [a, b] := by
    simp [List.filter, hab]
  rw [hpair] at hf
  exact (hf.trans hpre.sublist).trans (List.filter_sublist _)

/-- C15: in `fastestGrowing` (and in `declining`) the entries of any one growth
rate are an initial segment, in input order, of the input's entries of that
rate; so two entries of equal growth rate that appear in one of the lists in
some order appear in that order in the input. -/
theorem ranking_stable (growthData : List GrowthEntry) :
    (∀ k : ℚ,
      List.IsPrefix ((fastestGrowingOf growthData).filter (fun x => decide (x.growthRate = k)))
        (growthData.filter (fun x => decide (x.growthRate = k)))) ∧
    (∀ k : ℚ,
      List.IsPrefix ((decliningOf growthData).filter (fun x => decide (x.growthRate = k)))
        (growthData.filter (fun x => decide (x.growthRate = k)))) ∧
    (∀ a b : GrowthEntry, a.growthRate = b.growthRate →
      (List.Sublist [a, b] (fastestGrowingOf growthData) → List.Sublist [a, b] growthData) ∧
      (List.Sublist [a, b] (decliningOf growthData) → List.Sublist [a, b] growthData)) := by
  refine ⟨fastestGrowingOf_filter_rate growthData, decliningOf_filter_rate growthData, ?_⟩
  intro a b hab
  exact ⟨pair_sublist_of_filter_initial _ _ a b hab (fastestGrowingOf_filter_rate growthData _),
    pair_sublist_of_filter_initial _ _ a b hab (decliningOf_filter_rate growthData _)⟩

/-! ## Trend metrics: volatility, peak, average and totals -/

theorem sumReduce_eq_sum (xs : List ℚ) : sumReduce xs = xs.sum := by
  unfold sumReduce
  exact List.sum_eq_foldl.symm

theorem meanOf_eq_listMean (xs : List ℚ) : meanOf xs = listMean xs := by
  unfold meanOf listMean
  rw [sumReduce_eq_sum]

theorem varianceOf_eq_populationVariance (xs : List ℚ) :
    varianceOf xs = populationVariance xs := by
  unfold varianceOf populationVariance
  rw [meanOf_eq_listMean, List.sum_eq_foldl, List.foldl_map]
  ring

theorem populationVariance_nonneg (xs : List ℚ) : 0 ≤ populationVariance xs := by
  unfold populationVariance
  apply mul_nonneg
  · positivity
  · apply List.sum_nonneg
    intro x hx
    obtain ⟨y, _, rfl⟩ := List.mem_map.mp hx
    positivity

theorem populationVariance_const (xs : List ℚ) (c : ℚ) (hne : xs ≠ [])
    (hc : ∀ x ∈ xs, x = c) : populationVariance xs = 0 := by
  have hlen : (xs.length : ℚ) ≠ 0 := by
    have : xs.length ≠ 0 := fun h => hne (List.length_eq_zero.mp h)
    exact_mod_cast this
  have hmean : listMean xs = c := by
    unfold listMean
    rw [List.sum_eq_card_nsmul xs c hc, nsmul_eq_mul]
    field_simp
  unfold populationVariance
  rw [hmean]
  have hz : (xs.map (fun x => (x - c) ^ 2)).sum = 0 := by
    apply List.sum_eq_zero
    intro y hy
    obtain ⟨x, hx, rfl⟩ := List.mem_map.mp hy
    rw [hc x hx]
    ring
  rw [hz, mul_zero]

theorem volatility_eq (sqrt : ℚ → ℚ) (ts : List Observation) (hlen : 2 ≤ ts.length) :
    (calculateTrendMetrics sqrt ts).volatility
      = round2 (sqrt (populationVariance (mentionsOf ts))) := by
  have hguard : ¬ ts.length < 2 := by omega
  simp only [calculateTrendMetrics, hguard, if_false, varianceOf_eq_populationVariance]

/-- C16: for a window of at least two observations the returned `volatility`
is `Math.sqrt` of the population variance of all mention counts (divisor `n`),
rounded to two decimals; in particular, when the variance is the square of a
non-negative `s` that `Math.sqrt` returns for it, `volatility` is `s` rounded
to two decimals. -/
theorem volatility_population_std (sqrt : ℚ → ℚ) (ts : List Observation)
    (hlen : 2 ≤ ts.length) :
    (calculateTrendMetrics sqrt ts).volatility
      = round2 (sqrt ((1 / (ts.length : ℚ)) *
          ((mentionsOf ts).map (fun m => (m - (mentionsOf ts).sum / ts.length) ^ 2)).sum)) ∧
    (∀ s : ℚ, 0 ≤ s → s ^ 2 = populationVariance (mentionsOf ts) → sqrt (s ^ 2) = s →
      (calculateTrendMetrics sqrt ts).volatility = round2 s) := by
  have hl : (mentionsOf ts).length = ts.length := by simp [mentionsOf]
  constructor
  · rw [volatility_eq sqrt ts hlen]
    simp only [populationVariance, listMean, hl]
  · intro s _ hs hsqrt
    rw [volatility_eq sqrt ts hlen, ← hs, hsqrt]

/-- Witness of C16 on the window with mentions 2, 4, 4, 4, 5, 5, 7, 9 (population
variance 4, standard deviation 2). -/
theorem volatility_population_std_witness :
    (2 : ℚ) ^ 2 = populationVariance
      (mentionsOf [obs 0 2, obs 1 4, obs 2 4, obs 3 4, obs 4 5, obs 5 5, obs 6 7, obs 7 9]) ∧
    (calculateTrendMetrics sqrtFloor
      [obs 0 2, obs 1 4, obs 2 4, obs 3 4, obs 4 5, obs 5 5, obs 6 7, obs 7 9]).volatility
      = round2 2 := by
  have hv : (2 : ℚ) ^ 2 = populationVariance
      (mentionsOf [obs 0 2, obs 1 4, obs 2 4, obs 3 4, obs 4 5, obs 5 5, obs 6 7, obs 7 9]) := by
    norm_num [populationVariance, listMean, mentionsOf, obs]
  have hs : sqrtFloor ((2 : ℚ) ^ 2) = 2 := by
    have h4 : ((2 : ℚ) ^ 2) = ((4 : ℤ) : ℚ) := by norm_num
    have hsq : Nat.sqrt 4 = 2 := Nat.sqrt_eq 2
    rw [sqrtFloor, h4, Int.floor_intCast]
    simp [hsq]
  exact ⟨hv, (volatility_population_std sqrtFloor
    [obs 0 2, obs 1 4, obs 2 4, obs 3 4, obs 4 5, obs 5 5, obs 6 7, obs 7 9]
    (by decide)).2 2 (by norm_num) hv hs⟩

/-- C17: with `Math.sqrt` non-negative on non-negative arguments and
`Math.sqrt(0) = 0`, the returned `volatility` of every non-empty window is
`≥ 0`, and it is exactly 0 when all mention counts of the window are equal. -/
theorem volatility_nonneg (sqrt : ℚ → ℚ) (hsqrt : ∀ x : ℚ, 0 ≤ x → 0 ≤ sqrt x)
    (hsqrt0 : sqrt 0 = 0) (ts : List Observation) (hne : ts ≠ []) :
    0 ≤ (calculateTrendMetrics sqrt ts).volatility ∧
    ((∀ a ∈ ts, ∀ b ∈ ts, a.mentions = b.mentions) →
      (calculateTrendMetrics sqrt ts).volatility = 0) := by
  have hround0 : round2 0 = 0 := by norm_num [round2, jsRound]
  by_cases hshort : ts.length < 2
  · have hr : (calculateTrendMetrics sqrt ts).volatility = 0 := by
      simp only [calculateTrendMetrics, hshort, if_true]
    rw [hr]
    exact ⟨le_refl _, fun _ => rfl⟩
  · have hlen : 2 ≤ ts.length := by omega
    rw [volatility_eq sqrt ts hlen]
    constructor
    · have h := le_round2 (sqrt (populationVariance (mentionsOf ts))) 0
        (by push_cast; simpa using hsqrt _ (populationVariance_nonneg _))
      simpa using h
    · intro hall
      obtain ⟨a, ha⟩ := List.exists_mem_of_ne_nil ts hne
      have hconst : ∀ x ∈ mentionsOf ts, x = (a.mentions : ℚ) := by
        intro x hx
        obtain ⟨b, hb, rfl⟩ := List.mem_map.mp hx
        rw [hall b hb a ha]
      have hne' : mentionsOf ts ≠ [] := by
        intro h
        exact hne (List.map_eq_nil_iff.mp h)
      rw [populationVariance_const _ _ hne' hconst, hsqrt0, hround0]

/-- Witness of C17 on the constant window 7, 7, 7. -/
theorem volatility_nonneg_witness :
    0 ≤ (calculateTrendMetrics sqrtFloor [obs 0 7, obs 1 7, obs 2 7]).volatility ∧
    ((∀ a ∈ [obs 0 7, obs 1 7, obs 2 7], ∀ b ∈ [obs 0 7, obs 1 7, obs 2 7],
        a.mentions = b.mentions) →
      (calculateTrendMetrics sqrtFloor [obs 0 7, obs 1 7, obs 2 7]).volatility = 0) :=
  volatility_nonneg sqrtFloor (fun _ _ => Nat.cast_nonneg _) (by simp [sqrtFloor])
    [obs 0 7, obs 1 7, obs 2 7] (by decide)

theorem foldl_max_bounds (xs : List ℚ) (x : ℚ) :
    x ≤ xs.foldl max x ∧ (∀ y ∈ xs, y ≤ xs.foldl max x) ∧ xs.foldl max x ∈ x :: xs := by
  induction xs generalizing x with
  | nil => exact ⟨le_refl _, fun y hy => absurd hy (List.not_mem_nil y), List.mem_singleton.mpr rfl⟩
  | cons a t ih =>
    obtain ⟨h1, h2, h3⟩ := ih (max x a)
    refine ⟨le_trans (le_max_left x a) h1, ?_, ?_⟩
    · intro y hy
      rcases List.mem_cons.mp hy with rfl | hy
      · exact le_trans (le_max_right x y) h1
      · exact h2 y hy
    · rw [List.foldl_cons]
      rcases List.mem_cons.mp h3 with h | h
      · rw [h]
        rcases max_choice x a with hm | hm
        · rw [hm]
          exact List.mem_cons_self _ _
        · rw [hm]
          exact List.mem_cons_of_mem _ (List.mem_cons_self _ _)
      · exact List.mem_cons_of_mem _ (List.mem_cons_of_mem _ h)

theorem mathMax_bounds (xs : List ℚ) (hne : xs ≠ []) :
    mathMax xs ∈ xs ∧ ∀ y ∈ xs, y ≤ mathMax xs := by
  cases xs with
  | nil => exact absurd rfl hne
  | cons x t =>
    obtain ⟨h1, h2, h3⟩ := foldl_max_bounds t x
    refine ⟨h3, ?_⟩
    intro y hy
    rcases List.mem_cons.mp hy with rfl | hy
    · exact h1
    · exact h2 y hy

theorem mentionsOf_sum (ts : List Observation) :
    (mentionsOf ts).sum = (((ts.map (fun o => o.mentions)).sum : ℕ) : ℚ) := by
  rw [Nat.cast_list_sum, List.map_map]
  rfl

theorem engagementsOf_sum (ts : List Observation) :
    (engagementsOf ts).sum = (((ts.map (fun o => o.engagement)).sum : ℕ) : ℚ) := by
  rw [Nat.cast_list_sum, List.map_map]
  rfl

/-- C19: on the window with mentions 100, 150, 90 `calculateTrendMetrics`
returns `growthRate = -10`, `trend = "stable"`, `peak = 150` and
`average = 113.33`. -/
theorem example_trend_metrics (sqrt : ℚ → ℚ) :
    (calculateTrendMetrics sqrt [obs 0 100, obs 1 150, obs 2 90]).growthRate = -10 ∧
    (calculateTrendMetrics sqrt [obs 0 100, obs 1 150, obs 2 90]).trend = "stable" ∧
    (calculateTrendMetrics sqrt [obs 0 100, obs 1 150, obs 2 90]).peak = 150 ∧
    (calculateTrendMetrics sqrt [obs 0 100, obs 1 150, obs 2 90]).average = 11333 / 100 := by
  have hguard : ¬ [obs 0 100, obs 1 150, obs 2 90].length < 2 := by decide
  have hraw : rawGrowthRate (mentionsOf [obs 0 100, obs 1 150, obs 2 90]) = -10 := by
    norm_num [rawGrowthRate, mentionsOf, obs]
  have hmean : meanOf (mentionsOf [obs 0 100, obs 1 150, obs 2 90]) = 340 / 3 := by
    norm_num [meanOf, sumReduce, mentionsOf, obs]
  have hmax : mathMax (mentionsOf [obs 0 100, obs 1 150, obs 2 90]) = 150 := by
    norm_num [mathMax, mentionsOf, obs]
  have hr1 : jsRound (-10 * 100) = -1000 := by
    rw [jsRound_eq_iff]
    constructor <;> norm_num
  have hr2 : jsRound (340 / 3 * 100) = 11333 := by
    rw [jsRound_eq_iff]
    constructor <;> norm_num
  refine ⟨?_, ?_, ?_, ?_⟩
  · simp only [calculateTrendMetrics, hguard, if_false, hraw, round2, hr1]
    norm_num
  · simp only [calculateTrendMetrics, hguard, if_false, hraw]
    rw [classifyTrend_stable]
    constructor <;> norm_num
  · simp only [calculateTrendMetrics, hguard, if_false, hmax]
  · simp only [calculateTrendMetrics, hguard, if_false, hmean, round2, hr2]
    norm_num

/-- C20: for a window of at least two observations the returned
`totalMentions` is the sum of the `mentions` of all its observations and the
returned `totalEngagement` is the sum of their `engagement`. -/
theorem trendMetrics_totals (sqrt : ℚ → ℚ) (ts : List Observation) (hlen : 2 ≤ ts.length) :
    (calculateTrendMetrics sqrt ts).totalMentions
      = some (((ts.map (fun o => o.mentions)).sum : ℕ) : ℚ) ∧
    (calculateTrendMetrics sqrt ts).totalEngagement
      = some (((ts.map (fun o => o.engagement)).sum : ℕ) : ℚ) := by
  have hguard : ¬ ts.length < 2 := by omega
  constructor
  · simp only [calculateTrendMetrics, hguard, if_false, sumReduce_eq_sum, mentionsOf_sum]
  · simp only [calculateTrendMetrics, hguard, if_false, sumReduce_eq_sum, engagementsOf_sum]

/-- Witness of C20 on a window with mentions 3, 4 and engagement 10, 20. -/
theorem trendMetrics_totals_witness :
    (calculateTrendMetrics sqrtFloor
        [{ timestamp := 0, mentions := 3, engagement := 10, sentiment_score := 0 },
         { timestamp := 1, mentions := 4, engagement := 20, sentiment_score := 0 }]).totalMentions
      = some ((([({ timestamp := 0, mentions := 3, engagement := 10, sentiment_score := 0 } :
            Observation),
          { timestamp := 1, mentions := 4, engagement := 20, sentiment_score := 0 }].map
            (fun o => o.mentions)).sum : ℕ) : ℚ) ∧
    (calculateTrendMetrics sqrtFloor
        [{ timestamp := 0, mentions := 3, engagement := 10, sentiment_score := 0 },
         { timestamp := 1, mentions := 4, engagement := 20, sentiment_score := 0 }]).totalEngagement
      = some ((([({ timestamp := 0, mentions := 3, engagement := 10, sentiment_score := 0 } :
            Observation),
          { timestamp := 1, mentions := 4, engagement := 20, sentiment_score := 0 }].map
            (fun o => o.engagement)).sum : ℕ) : ℚ) :=
  trendMetrics_totals sqrtFloor
    [{ timestamp := 0, mentions := 3, engagement := 10, sentiment_score := 0 },
     { timestamp := 1, mentions := 4, engagement := 20, sentiment_score := 0 }] (by decide)

/-! ## The trending score -/

theorem foldl_mentions_eq_sum (l : List Observation) :
    l.foldl (fun sum entry => sum + (entry.mentions : ℚ)) 0
      = (((l.map (fun o => o.mentions)).sum : ℕ) : ℚ) := by
  rw [← mentionsOf_sum, List.sum_eq_foldl, mentionsOf, List.foldl_map]

/-- C21: `updateTrendingScore` returns
`0.3 * metrics.engagement_rate + 0.4 * R + 0.3 * sentiment.overall_score`, with
`R` the sum of the mentions of the observations whose timestamp is later than
`now - 24h`, unclamped; the record after the call has that value as
`trending_score` and every other field as before. -/
theorem updateTrendingScore_formula (now : Int) (doc : HashtagDoc) :
    (updateTrendingScore now doc).2
      = 3 / 10 * doc.engagement_rate
        + 4 / 10 * ((((doc.time_series.filter
            (fun o => decide (now - 24 * 60 * 60 * 1000 < o.timestamp))).map
              (fun o => o.mentions)).sum : ℕ) : ℚ)
        + 3 / 10 * doc.overall_score ∧
    (updateTrendingScore now doc).1.trending_score = (updateTrendingScore now doc).2 ∧
    (updateTrendingScore now doc).1
      = { doc with trending_score := (updateTrendingScore now doc).2 } := by
  refine ⟨?_, rfl, rfl⟩
  simp only [updateTrendingScore, gt_iff_lt, foldl_mentions_eq_sum]
  ring

/-! ## Totality of the analytics helpers -/

theorem checkedDiv_of_ne (a b : ℚ) (h : b ≠ 0) : checkedDiv a b = some (a / b) := by
  simp [checkedDiv, h]

theorem getElem?_eq_some_getD (l : List ℚ) (i : Nat) (h : i < l.length) :
    l[i]? = some (l.getD i 0) := by
  simp [List.getD_eq_getElem?_getD, List.getElem?_eq_getElem h]

theorem mentionsOf_length (ts : List Observation) : (mentionsOf ts).length = ts.length := by
  simp [mentionsOf]

theorem mentionsOf_getD_of_getElem? (ts : List Observation) (i : Nat) (o : Observation)
    (h : ts[i]? = some o) : (mentionsOf ts).getD i 0 = (o.mentions : ℚ) := by
  simp [mentionsOf, List.getD_eq_getElem?_getD, List.getElem?_map, h]

theorem calculateTrendMetricsChecked_eq (maxArgs : Nat) (sqrt : ℚ → ℚ)
    (ts : List Observation) (hargs : ts.length < 2 ∨ ts.length ≤ maxArgs) :
    calculateTrendMetricsChecked maxArgs sqrt ts = some (calculateTrendMetrics sqrt ts) := by
  by_cases hshort : ts.length < 2
  · simp only [calculateTrendMetricsChecked, calculateTrendMetrics, hshort, if_true]
  · have hlen : 2 ≤ (mentionsOf ts).length := by rw [mentionsOf_length]; omega
    have hfit : ¬ (mentionsOf ts).length > maxArgs := by rw [mentionsOf_length]; omega
    have h0 := getElem?_eq_some_getD (mentionsOf ts) 0 (by omega)
    have h1 := getElem?_eq_some_getD (mentionsOf ts) ((mentionsOf ts).length - 1) (by omega)
    have hn : ((mentionsOf ts).length : ℚ) ≠ 0 := by
      have : (mentionsOf ts).length ≠ 0 := by omega
      exact_mod_cast this
    simp only [calculateTrendMetricsChecked, calculateTrendMetrics, hshort, if_false, h0, h1,
      Option.bind_eq_bind, Option.some_bind, checkedDiv_of_ne _ _ hn, hfit]
    have hpeak : ∀ f : ℚ → Option TrendMetrics,
        (match mentionsOf ts with
          | [] => none.bind f
          | x :: xs => f (xs.foldl max x)) = f (mathMax (mentionsOf ts)) := by
      intro f
      cases hm : mentionsOf ts with
      | nil => rw [hm] at hlen; exact absurd hlen (by decide)
      | cons x xs => rfl
    by_cases hpos : (mentionsOf ts).getD 0 0 > 0
    · rw [if_pos hpos, checkedDiv_of_ne _ _ (ne_of_gt hpos)]
      simp only [Option.map_some', Option.some_bind]
      have hraw : rawGrowthRate (mentionsOf ts)
          = ((mentionsOf ts).getD ((mentionsOf ts).length - 1) 0 - (mentionsOf ts).getD 0 0)
            / (mentionsOf ts).getD 0 0 * 100 := by
        unfold rawGrowthRate
        simp only [hpos, if_true]
      rw [hraw]
      exact hpeak _
    · rw [if_neg hpos]
      have hraw : rawGrowthRate (mentionsOf ts) = 0 := by
        unfold rawGrowthRate
        simp only [hpos, if_false]
      rw [hraw]
      exact hpeak _

theorem calculateTrendMetricsChecked_long (maxArgs : Nat) (sqrt : ℚ → ℚ)
    (ts : List Observation) (hlen : 2 ≤ ts.length) (hlong : maxArgs < ts.length) :
    calculateTrendMetricsChecked maxArgs sqrt ts = none := by
  have hshort : ¬ ts.length < 2 := by omega
  have hlen2 : 2 ≤ (mentionsOf ts).length := by rw [mentionsOf_length]; omega
  have hfit : (mentionsOf ts).length > maxArgs := by rw [mentionsOf_length]; omega
  have h0 := getElem?_eq_some_getD (mentionsOf ts) 0 (by omega)
  have h1 := getElem?_eq_some_getD (mentionsOf ts) ((mentionsOf ts).length - 1) (by omega)
  have hn : ((mentionsOf ts).length : ℚ) ≠ 0 := by
    have : (mentionsOf ts).length ≠ 0 := by omega
    exact_mod_cast this
  simp only [calculateTrendMetricsChecked, hshort, if_false, h0, h1,
    Option.bind_eq_bind, Option.some_bind, checkedDiv_of_ne _ _ hn, hfit, if_true,
    Option.none_bind]
  by_cases hpos : (mentionsOf ts).getD 0 0 > 0
  · rw [if_pos hpos, checkedDiv_of_ne _ _ (ne_of_gt hpos)]
    rfl
  · rw [if_neg hpos]

theorem recentMentionsOf_length_nat (ts : List Observation) (hlen : 3 ≤ ts.length) :
    (recentMentionsOf ts).length = 3 := by
  obtain ⟨pre, o1, o2, o3, rfl⟩ := exists_last_three ts hlen
  rw [recentMentionsOf_append]
  rfl

theorem generatePredictionsChecked_eq (ts : List Observation) :
    generatePredictionsChecked ts = some (generatePredictions ts) := by
  by_cases hshort : ts.length < 3
  · simp only [generatePredictionsChecked, generatePredictions, hshort, if_true]
  · have hn : ((recentMentionsOf ts).length : ℚ) = 3 := by
      rw [recentMentionsOf_length_nat ts (by omega)]
      norm_num
    have hden : (3 : ℚ) * (3 * (3 + 1) * (2 * 3 + 1) / 6) - 3 * (3 + 1) / 2 * (3 * (3 + 1) / 2)
        ≠ 0 := by norm_num
    simp only [generatePredictionsChecked, generatePredictions, hshort, if_false, hn,
      Option.bind_eq_bind, Option.some_bind,
      checkedDiv_of_ne _ (2 : ℚ) (by norm_num), checkedDiv_of_ne _ (6 : ℚ) (by norm_num),
      checkedDiv_of_ne _ _ hden, checkedDiv_of_ne _ (3 : ℚ) (by norm_num),
      checkedDiv_of_ne _ (100 : ℚ) (by norm_num), checkedDiv_of_ne _ (50 : ℚ) (by norm_num),
      slopeOf, interceptOf, sumXOf, sumX2Of]

theorem calculateGrowthRateChecked_eq (ts : List Observation) :
    calculateGrowthRateChecked ts = some (calculateGrowthRate ts) := by
  by_cases hshort : ts.length < 2
  · simp only [calculateGrowthRateChecked, calculateGrowthRate, hshort, if_true]
  · obtain ⟨first, h0⟩ : ∃ o, ts[0]? = some o :=
      ⟨_, List.getElem?_eq_getElem (by omega)⟩
    obtain ⟨last, h1⟩ : ∃ o, ts[ts.length - 1]? = some o :=
      ⟨_, List.getElem?_eq_getElem (by omega)⟩
    have hm0 := mentionsOf_getD_of_getElem? ts 0 _ h0
    have hm1 := mentionsOf_getD_of_getElem? ts (ts.length - 1) _ h1
    simp only [calculateGrowthRateChecked, calculateGrowthRate, hshort, if_false, h0, h1,
      Option.bind_eq_bind, Option.some_bind, mentionsOf_length, hm0, hm1]
    by_cases hz : (first.mentions : ℚ) = 0
    · simp only [hz, if_true]
    · simp only [hz, if_false, checkedDiv_of_ne _ _ hz, Option.some_bind]

/-- C22, the code at the failing input: with `maxArgs` the number of arguments
the engine accepts in one call, `calculateTrendMetrics` fails on every window of
more than `maxArgs` (and at least two) observations, for instance on 130000
observations when `maxArgs < 130000`, because of `Math.max(...mentions)`; on
windows of at most `maxArgs` observations, and on windows of fewer than two, it
returns its result. `generatePredictions` and `calculateGrowthRate` return a
result on every window; no divisor is zero, and for a window of at least three
observations the regression denominator `n * sumX2 - sumX * sumX` is 6. -/
theorem trendMetrics_fails_on_long_window (maxArgs : Nat) (sqrt : ℚ → ℚ)
    (ts : List Observation) :
    (maxArgs < 130000 →
      calculateTrendMetricsChecked maxArgs sqrt (List.replicate 130000 (obs 0 1)) = none) ∧
    (2 ≤ ts.length → maxArgs < ts.length →
      calculateTrendMetricsChecked maxArgs sqrt ts = none) ∧
    (ts.length < 2 ∨ ts.length ≤ maxArgs →
      calculateTrendMetricsChecked maxArgs sqrt ts = some (calculateTrendMetrics sqrt ts)) ∧
    generatePredictionsChecked ts = some (generatePredictions ts) ∧
    calculateGrowthRateChecked ts = some (calculateGrowthRate ts) ∧
    (3 ≤ ts.length →
      ((recentMentionsOf ts).length : ℚ) * sumX2Of ((recentMentionsOf ts).length : ℚ)
        - sumXOf ((recentMentionsOf ts).length : ℚ) * sumXOf ((recentMentionsOf ts).length : ℚ)
        = 6) := by
  refine ⟨?_, calculateTrendMetricsChecked_long maxArgs sqrt ts,
    calculateTrendMetricsChecked_eq maxArgs sqrt ts, generatePredictionsChecked_eq ts,
    calculateGrowthRateChecked_eq ts, ?_⟩
  · intro hmax
    apply calculateTrendMetricsChecked_long
    · rw [List.length_replicate]
      norm_num
    · rw [List.length_replicate]
      exact hmax
  · intro hlen
    rw [recentMentionsOf_length_nat ts hlen]
    norm_num [sumXOf, sumX2Of]

/-! ## The queries over a stored series -/

theorem predictions_unsorted_example :
    (generatePredictions [obs 3 40, obs 1 10, obs 2 20]).next_24h.mentions_prediction = 3 := by
  have hguard : ¬ [obs 3 40, obs 1 10, obs 2 20].length < 3 := by decide
  have hn : ((recentMentionsOf [obs 3 40, obs 1 10, obs 2 20]).length : ℚ) = 3 :=
    recentMentionsOf_length [] (obs 3 40) (obs 1 10) (obs 2 20)
  have hs : slopeOf (recentMentionsOf [obs 3 40, obs 1 10, obs 2 20]) = -10 := by
    rw [show [obs 3 40, obs 1 10, obs 2 20] = [] ++ [obs 3 40, obs 1 10, obs 2 20] from rfl,
      recentMentionsOf_append, slopeOf_three]
    norm_num [obs]
  have hi : interceptOf (recentMentionsOf [obs 3 40, obs 1 10, obs 2 20]) = 130 / 3 := by
    rw [show [obs 3 40, obs 1 10, obs 2 20] = [] ++ [obs 3 40, obs 1 10, obs 2 20] from rfl,
      recentMentionsOf_append, interceptOf_three]
    norm_num [obs]
  simp only [generatePredictions, hguard, if_false, hn, hs, hi]
  have hr : jsRound (-10 * (3 + 1) + 130 / 3) = 3 := by
    rw [jsRound_eq_iff]
    constructor <;> norm_num
  rw [hr]
  rfl

/-- C23, the code at the failing input: the stored series with (timestamp,
mentions) = (3, 40), (1, 10), (2, 20) is a permutation of the time-ordered
series (1, 10), (2, 20), (3, 40), yet `GET /predictions/:hashtag` forecasts 3
mentions for the former and 53 for the latter: it reads the last three stored
observations, not the three latest. -/
theorem predictions_depend_on_stored_order :
    List.Perm [obs 3 40, obs 1 10, obs 2 20] [obs 1 10, obs 2 20, obs 3 40] ∧
    (predictionsQuery (docOf "twitter" 0 [obs 3 40, obs 1 10, obs 2 20])).next_24h.mentions_prediction
      = 3 ∧
    (predictionsQuery (docOf "twitter" 0 [obs 1 10, obs 2 20, obs 3 40])).next_24h.mentions_prediction
      = 53 := by
  refine ⟨?_, predictions_unsorted_example, ?_⟩
  · exact @List.perm_append_comm _ [obs 3 40] [obs 1 10, obs 2 20]
  · have hguard : ¬ [obs 1 10, obs 2 20, obs 3 40].length < 3 := by decide
    have hn : ((recentMentionsOf [obs 1 10, obs 2 20, obs 3 40]).length : ℚ) = 3 :=
      recentMentionsOf_length [] (obs 1 10) (obs 2 20) (obs 3 40)
    have hs : slopeOf (recentMentionsOf [obs 1 10, obs 2 20, obs 3 40]) = 15 := by
      rw [show [obs 1 10, obs 2 20, obs 3 40] = [] ++ [obs 1 10, obs 2 20, obs 3 40] from rfl,
        recentMentionsOf_append, slopeOf_three]
      norm_num [obs]
    have hi : interceptOf (recentMentionsOf [obs 1 10, obs 2 20, obs 3 40]) = -20 / 3 := by
      rw [show [obs 1 10, obs 2 20, obs 3 40] = [] ++ [obs 1 10, obs 2 20, obs 3 40] from rfl,
        recentMentionsOf_append, interceptOf_three]
      norm_num [obs]
    simp only [predictionsQuery, docOf, generatePredictions, hguard, if_false, hn, hs, hi]
    have hr : jsRound (15 * (3 + 1) + -20 / 3) = 53 := by
      rw [jsRound_eq_iff]
      constructor <;> norm_num
    rw [hr]
    rfl

theorem windowOf_eq (cutoff : Int) (series : List Observation) :
    windowOf cutoff series
      = jsSort (fun a b => (fun o : Observation => (o.timestamp : ℚ)) a
            - (fun o : Observation => (o.timestamp : ℚ)) b)
          (series.filter (fun entry => decide (entry.timestamp ≥ cutoff))) := by
  unfold windowOf
  have hcmp : (fun a b : Observation => ((a.timestamp - b.timestamp : Int) : ℚ))
      = (fun a b => (fun o : Observation => (o.timestamp : ℚ)) a
            - (fun o : Observation => (o.timestamp : ℚ)) b) := by
    funext a b
    push_cast
    rfl
  rw [hcmp]

theorem windowOf_perm (cutoff : Int) (series : List Observation) :
    (windowOf cutoff series).Perm
      (series.filter (fun entry => decide (entry.timestamp ≥ cutoff))) :=
  List.mergeSort_perm _ _

theorem windowOf_sorted (cutoff : Int) (series : List Observation) :
    (windowOf cutoff series).Pairwise (fun a b => a.timestamp ≤ b.timestamp) := by
  rw [windowOf_eq]
  refine (jsSort_sorted (fun o : Observation => (o.timestamp : ℚ)) _).imp ?_
  intro a b hab
  exact_mod_cast hab

/-- C24: the window that `GET /trends/:hashtag` hands to
`calculateTrendMetrics` is a rearrangement of exactly the stored observations
with `timestamp >= now - period` (each as often as stored, the cutoff itself
included), in non-decreasing timestamp order; the growth ranking computes each
entry's growth rate on the window built the same way. -/
theorem window_contents (now days : Int) (doc : HashtagDoc) :
    (trendsWindow now days doc).Perm
      (doc.time_series.filter
        (fun o => decide (now - days * 24 * 60 * 60 * 1000 ≤ o.timestamp))) ∧
    (∀ o : Observation, o ∈ trendsWindow now days doc ↔
      o ∈ doc.time_series ∧ now - days * 24 * 60 * 60 * 1000 ≤ o.timestamp) ∧
    (trendsWindow now days doc).Pairwise (fun a b => a.timestamp ≤ b.timestamp) ∧
    (∀ sqrt : ℚ → ℚ,
      trendsAnalysis sqrt now days doc = calculateTrendMetrics sqrt (trendsWindow now days doc)) ∧
    (growthEntryOf now days doc).growthRate = calculateGrowthRate (trendsWindow now days doc) := by
  have hperm : (trendsWindow now days doc).Perm
      (doc.time_series.filter
        (fun o => decide (now - days * 24 * 60 * 60 * 1000 ≤ o.timestamp))) :=
    windowOf_perm (cutoffDate now days) doc.time_series
  refine ⟨hperm, ?_, windowOf_sorted _ _, fun _ => rfl, rfl⟩
  intro o
  rw [hperm.mem_iff, List.mem_filter, decide_eq_true_eq]

/-! ## Ingestion -/

/-- C25, the code at the failing input: for a stored record whose series holds
the observation (timestamp 100, mentions 7) and fetched data whose series is
the new observation (timestamp 200, mentions 9), the record stored by
`POST /fetch/:hashtag` has the series of the fetched data alone; the earlier
observation is gone. This holds for every stored record and both branches. -/
theorem fetch_replaces_series :
    (fetchAndStoreTwitter (some (docOf "twitter" 0 [obs 100 7]))
        (docOf "twitter" 0 (fetchedSeries 200 9 0 0)) "other" 200).time_series
      = [obs 200 9] ∧
    obs 100 7 ∉ (fetchAndStoreTwitter (some (docOf "twitter" 0 [obs 100 7]))
        (docOf "twitter" 0 (fetchedSeries 200 9 0 0)) "other" 200).time_series ∧
    (∀ (stored : Option HashtagDoc) (data : HashtagDoc) (category : String) (now : Int),
      (fetchAndStoreTwitter stored data category now).time_series = data.time_series ∧
      (fetchAndStoreYoutube stored data category now).time_series = data.time_series) := by
  refine ⟨rfl, ?_, fun _ _ _ _ => ⟨rfl, rfl⟩⟩
  have h : (fetchAndStoreTwitter (some (docOf "twitter" 0 [obs 100 7]))
        (docOf "twitter" 0 (fetchedSeries 200 9 0 0)) "other" 200).time_series
      = [obs 200 9] := rfl
  rw [h]
  decide

/-- C26: for a freshly fetched record, whose series is the single observation
stamped `fetchTime` with mentions equal to `metrics.mentions`, the score
assigned by the Twitter branch and the score assigned by the YouTube branch of
`POST /fetch/:hashtag` are the same and equal the value `updateTrendingScore`
returns for that record at any moment `now` less than 24 hours after the fetch. -/
theorem ingestion_score_eq_update (data : HashtagDoc) (fetchTime now : Int)
    (totalMentions totalEngagement : ℕ) (avgSentiment : ℚ)
    (hseries : data.time_series
      = fetchedSeries fetchTime totalMentions totalEngagement avgSentiment)
    (hmentions : data.mentions = (totalMentions : ℚ))
    (hfresh : now - 24 * 60 * 60 * 1000 < fetchTime) :
    twitterFetchScore data = (updateTrendingScore now data).2 ∧
    youtubeFetchScore data = (updateTrendingScore now data).2 ∧
    twitterFetchScore data = youtubeFetchScore data := by
  have hu : (updateTrendingScore now data).2
      = data.engagement_rate * (3 / 10) + data.mentions * (4 / 10)
        + data.overall_score * (3 / 10) := by
    simp only [updateTrendingScore, hseries, fetchedSeries, List.filter, gt_iff_lt, hfresh,
      decide_True, List.foldl, hmentions]
    ring
  exact ⟨hu.symm, hu.symm, rfl⟩

/-- Witness of C26 on a record fetched at time 1000 with 12 mentions, read at
the same moment. -/
theorem ingestion_score_eq_update_witness :
    twitterFetchScore
        { docOf "twitter" 0 (fetchedSeries 1000 12 30 (1 / 2)) with
          mentions := 12, engagement_rate := 5 / 2, overall_score := 1 / 2 }
      = (updateTrendingScore 1000
        { docOf "twitter" 0 (fetchedSeries 1000 12 30 (1 / 2)) with
          mentions := 12, engagement_rate := 5 / 2, overall_score := 1 / 2 }).2 :=
  (ingestion_score_eq_update
    { docOf "twitter" 0 (fetchedSeries 1000 12 30 (1 / 2)) with
      mentions := 12, engagement_rate := 5 / 2, overall_score := 1 / 2 }
    1000 1000 12 30 (1 / 2) rfl (by norm_num) (by decide)).1

/-! ## The platform comparison -/

theorem reduce_keeps_first (rest : List (String × PlatformSummary)) (platform : String)
    (data : PlatformSummary) :
    rest.foldl
      (fun best pd =>
        if jsGreater pd.2.trending_score best.trending_score then Best.record pd.1 pd.2
        else best)
      (Best.pair platform data) = Best.pair platform data := by
  induction rest with
  | nil => rfl
  | cons pd tl ih =>
    rw [List.foldl_cons]
    have hstep : (if jsGreater pd.2.trending_score (Best.pair platform data).trending_score
        then Best.record pd.1 pd.2 else Best.pair platform data) = Best.pair platform data := by
      simp [Best.trending_score, jsGreater]
    rw [hstep]
    exact ih

theorem bestPerformingPlatform_none (platforms : List (String × PlatformSummary)) :
    bestPerformingPlatform platforms = none := by
  cases platforms with
  | nil => rfl
  | cons first rest =>
    simp only [bestPerformingPlatform, reduce_keeps_first]
    rfl

/-- C27, the code at the failing input: for the two records of a hashtag with
trending scores 5 (twitter) and 100 (youtube), `summary.bestPerformingPlatform`
is no platform name at all, not "youtube"; and so it is for every list of
records: the `reduce` has no initial value, so its accumulator starts as the
array `[platform, data]`, whose `trending_score` is `undefined`, every
comparison is false, and `.platform` of the array is `undefined`. -/
theorem compare_best_is_undefined :
    compareBest [docOf "twitter" 5 [], docOf "youtube" 100 []] = none ∧
    compareBest [docOf "twitter" 5 [], docOf "youtube" 100 []] ≠ some "youtube" ∧
    (∀ hashtagData : List HashtagDoc, compareBest hashtagData = none) := by
  have h : ∀ hashtagData : List HashtagDoc, compareBest hashtagData = none :=
    fun hashtagData => bestPerformingPlatform_none (platformEntries hashtagData)
  refine ⟨h _, ?_, h⟩
  rw [h]
  exact fun hc => Option.noConfusion hc

/-! ## The two growth rates compared -/

theorem calculateGrowthRate_of_first_last (ts : List Observation) (first last : Observation)
    (hlen : 2 ≤ ts.length) (hfirst : ts.head? = some first) (hlast : ts.getLast? = some last) :
    calculateGrowthRate ts =
      if first.mentions = 0 then (if 0 < last.mentions then 100 else 0)
      else (jsRound ((((last.mentions : ℚ) - first.mentions) / first.mentions) * 100 * 100) : ℚ)
        / 100 := by
  have hguard : ¬ ts.length < 2 := by omega
  simp only [calculateGrowthRate, hguard, if_false, mentionsOf_getD_first ts first hfirst,
    mentionsOf_getD_last ts last hlast, Nat.cast_eq_zero, gt_iff_lt, Nat.cast_pos]

theorem trendGrowthRate_of_first_last (sqrt : ℚ → ℚ) (ts : List Observation)
    (first last : Observation) (hlen : 2 ≤ ts.length) (hfirst : ts.head? = some first)
    (hlast : ts.getLast? = some last) :
    (calculateTrendMetrics sqrt ts).growthRate =
      if first.mentions = 0 then 0
      else (jsRound ((((last.mentions : ℚ) - first.mentions) / first.mentions) * 100 * 100) : ℚ)
        / 100 := by
  have hguard : ¬ ts.length < 2 := by omega
  simp only [calculateTrendMetrics, hguard, if_false, rawGrowthRate,
    mentionsOf_getD_first ts first hfirst, mentionsOf_getD_last ts last hlast, round2]
  rcases Nat.eq_zero_or_pos first.mentions with hz | hp
  · rw [if_pos hz, hz]
    norm_num [jsRound]
  · have hq : (0 : ℚ) < (first.mentions : ℚ) := by exact_mod_cast hp
    rw [if_pos hq, if_neg (Nat.pos_iff_ne_zero.mp hp)]

theorem exists_first_last (ts : List Observation) (hlen : 2 ≤ ts.length) :
    ∃ first last : Observation, ts.head? = some first ∧ ts.getLast? = some last := by
  cases ts with
  | nil => exact absurd hlen (by decide)
  | cons a t =>
    exact ⟨a, (a :: t).getLast (List.cons_ne_nil a t), rfl,
      List.getLast?_eq_getLast _ (List.cons_ne_nil a t)⟩

/-- C28: `calculateGrowthRate` and the `growthRate` of `calculateTrendMetrics`
differ exactly on the windows of at least two observations whose first
observation has `mentions = 0` and whose last has `mentions > 0`; there the
former is 100 and the latter 0. On every other window (fewer than two
observations, first `mentions > 0`, or first and last both 0) they are equal. -/
theorem growthRate_difference (sqrt : ℚ → ℚ) (ts : List Observation) :
    (calculateGrowthRate ts ≠ (calculateTrendMetrics sqrt ts).growthRate ↔
      2 ≤ ts.length ∧ ∃ first last : Observation,
        ts.head? = some first ∧ ts.getLast? = some last ∧
        first.mentions = 0 ∧ 0 < last.mentions) ∧
    (∀ first last : Observation, 2 ≤ ts.length →
      ts.head? = some first → ts.getLast? = some last →
      first.mentions = 0 → 0 < last.mentions →
      calculateGrowthRate ts = 100 ∧ (calculateTrendMetrics sqrt ts).growthRate = 0) := by
  constructor
  · constructor
    · intro hne
      by_cases hshort : ts.length < 2
      · exfalso
        apply hne
        simp only [calculateGrowthRate, calculateTrendMetrics, hshort, if_true]
      · have hlen : 2 ≤ ts.length := by omega
        obtain ⟨first, last, hfirst, hlast⟩ := exists_first_last ts hlen
        refine ⟨hlen, first, last, hfirst, hlast, ?_⟩
        rw [calculateGrowthRate_of_first_last ts first last hlen hfirst hlast,
          trendGrowthRate_of_first_last sqrt ts first last hlen hfirst hlast] at hne
        by_cases hz : first.mentions = 0
        · refine ⟨hz, ?_⟩
          by_contra hl
          apply hne
          rw [if_pos hz, if_pos hz, if_neg hl]
        · exfalso
          apply hne
          rw [if_neg hz, if_neg hz]
    · rintro ⟨hlen, first, last, hfirst, hlast, hz, hl⟩
      rw [calculateGrowthRate_of_first_last ts first last hlen hfirst hlast,
        trendGrowthRate_of_first_last sqrt ts first last hlen hfirst hlast,
        if_pos hz, if_pos hz, if_pos hl]
      norm_num
  · intro first last hlen hfirst hlast hz hl
    rw [calculateGrowthRate_of_first_last ts first last hlen hfirst hlast,
      trendGrowthRate_of_first_last sqrt ts first last hlen hfirst hlast,
      if_pos hz, if_pos hz, if_pos hl]
    exact ⟨rfl, rfl⟩

/-! ## Closed forms of the forecasts -/

/-- C29: for a window of at least three observations whose last three have
mention counts `y1, y2, y3`, the fitted slope is `(y3 - y1) / 2` whatever `y2`
is, the forecasts are `max(0, round((-2*y1 + y2 + 4*y3) / 3))` and
`max(0, round((-11*y1 + y2 + 13*y3) / 3))`, and for an arithmetic progression
`a, a + d, a + 2d` they are `max(0, a + 3d)` and `max(0, a + 9d)`. -/
theorem forecast_closed_forms (ts : List Observation) (hlen : 3 ≤ ts.length) :
    ∃ (pre : List Observation) (o1 o2 o3 : Observation),
      ts = pre ++ [o1, o2, o3] ∧
      slopeOf (recentMentionsOf ts) = ((o3.mentions : ℚ) - o1.mentions) / 2 ∧
      (∀ other : Observation,
        slopeOf (recentMentionsOf (pre ++ [o1, other, o3])) = slopeOf (recentMentionsOf ts)) ∧
      (generatePredictions ts).next_24h.mentions_prediction
        = max 0 (jsRound ((-2 * (o1.mentions : ℚ) + o2.mentions + 4 * o3.mentions) / 3)) ∧
      (generatePredictions ts).next_week.mentions_prediction
        = max 0 (jsRound ((-11 * (o1.mentions : ℚ) + o2.mentions + 13 * o3.mentions) / 3)) ∧
      (∀ d : ℤ, (o2.mentions : ℤ) = o1.mentions + d → (o3.mentions : ℤ) = o1.mentions + 2 * d →
        (generatePredictions ts).next_24h.mentions_prediction = max 0 (o1.mentions + 3 * d) ∧
        (generatePredictions ts).next_week.mentions_prediction = max 0 (o1.mentions + 9 * d)) := by
  have hguard : ¬ ts.length < 3 := by omega
  obtain ⟨pre, o1, o2, o3, rfl⟩ := exists_last_three ts hlen
  have h24 : (generatePredictions (pre ++ [o1, o2, o3])).next_24h.mentions_prediction
      = max 0 (jsRound ((-2 * (o1.mentions : ℚ) + o2.mentions + 4 * o3.mentions) / 3)) := by
    simp only [generatePredictions, hguard, if_false, recentMentionsOf_length]
    rw [recentMentionsOf_append, slopeOf_three, interceptOf_three]
    congr 2
    ring
  have hweek : (generatePredictions (pre ++ [o1, o2, o3])).next_week.mentions_prediction
      = max 0 (jsRound ((-11 * (o1.mentions : ℚ) + o2.mentions + 13 * o3.mentions) / 3)) := by
    simp only [generatePredictions, hguard, if_false, recentMentionsOf_length]
    rw [recentMentionsOf_append, slopeOf_three, interceptOf_three]
    congr 2
    ring
  refine ⟨pre, o1, o2, o3, rfl, ?_, ?_, h24, hweek, ?_⟩
  · rw [recentMentionsOf_append, slopeOf_three]
  · intro other
    rw [recentMentionsOf_append, recentMentionsOf_append, slopeOf_three, slopeOf_three]
  · intro d h2 h3
    have h2q : (o2.mentions : ℚ) = (o1.mentions : ℚ) + (d : ℚ) := by exact_mod_cast h2
    have h3q : (o3.mentions : ℚ) = (o1.mentions : ℚ) + 2 * (d : ℚ) := by exact_mod_cast h3
    constructor
    · rw [h24, h2q, h3q]
      have he : (-2 * (o1.mentions : ℚ) + ((o1.mentions : ℚ) + (d : ℚ))
          + 4 * ((o1.mentions : ℚ) + 2 * (d : ℚ))) / 3
          = (((o1.mentions : ℤ) + 3 * d : ℤ) : ℚ) := by
        push_cast
        ring
      rw [he, jsRound_intCast]
    · rw [hweek, h2q, h3q]
      have he : (-11 * (o1.mentions : ℚ) + ((o1.mentions : ℚ) + (d : ℚ))
          + 13 * ((o1.mentions : ℚ) + 2 * (d : ℚ))) / 3
          = (((o1.mentions : ℤ) + 9 * d : ℤ) : ℚ) := by
        push_cast
        ring
      rw [he, jsRound_intCast]

/-- Witness of C29 on the arithmetic progression 5, 10, 15 after an earlier
observation. -/
theorem forecast_closed_forms_witness :
    ∃ (pre : List Observation) (o1 o2 o3 : Observation),
      [obs 0 99, obs 1 5, obs 2 10, obs 3 15] = pre ++ [o1, o2, o3] ∧
      slopeOf (recentMentionsOf [obs 0 99, obs 1 5, obs 2 10, obs 3 15])
        = ((o3.mentions : ℚ) - o1.mentions) / 2 ∧
      (∀ other : Observation,
        slopeOf (recentMentionsOf (pre ++ [o1, other, o3]))
          = slopeOf (recentMentionsOf [obs 0 99, obs 1 5, obs 2 10, obs 3 15])) ∧
      (generatePredictions [obs 0 99, obs 1 5, obs 2 10, obs 3 15]).next_24h.mentions_prediction
        = max 0 (jsRound ((-2 * (o1.mentions : ℚ) + o2.mentions + 4 * o3.mentions) / 3)) ∧
      (generatePredictions [obs 0 99, obs 1 5, obs 2 10, obs 3 15]).next_week.mentions_prediction
        = max 0 (jsRound ((-11 * (o1.mentions : ℚ) + o2.mentions + 13 * o3.mentions) / 3)) ∧
      (∀ d : ℤ, (o2.mentions : ℤ) = o1.mentions + d → (o3.mentions : ℤ) = o1.mentions + 2 * d →
        (generatePredictions [obs 0 99, obs 1 5, obs 2 10, obs 3 15]).next_24h.mentions_prediction
          = max 0 (o1.mentions + 3 * d) ∧
        (generatePredictions [obs 0 99, obs 1 5, obs 2 10, obs 3 15]).next_week.mentions_prediction
          = max 0 (o1.mentions + 9 * d)) :=
  forecast_closed_forms [obs 0 99, obs 1 5, obs 2 10, obs 3 15] (by decide)

/-! ## The ranking lists are the top ten -/

/-- The first ten of a sorted list against the rest: the split is a
rearrangement of the input, the head has `min 10` of its length, and every
element of the rest has a key at least that of every element of the head. -/
theorem take_ten_of_jsSort {α : Type} (key : α → ℚ) (xs : List α) :
    ((jsSort (fun a b => key a - key b) xs).take 10).length = min 10 xs.length ∧
    (((jsSort (fun a b => key a - key b) xs).take 10)
      ++ (jsSort (fun a b => key a - key b) xs).drop 10).Perm xs ∧
    (∀ x ∈ (jsSort (fun a b => key a - key b) xs).drop 10,
      ∀ y ∈ (jsSort (fun a b => key a - key b) xs).take 10, key y ≤ key x) := by
  have hperm : (jsSort (fun a b => key a - key b) xs).Perm xs := List.mergeSort_perm _ _
  refine ⟨?_, ?_, ?_⟩
  · rw [List.length_take, hperm.length_eq]
  · rw [List.take_append_drop]
    exact hperm
  · intro x hx y hy
    have hs := jsSort_sorted key xs
    rw [← List.take_append_drop 10 (jsSort (fun a b => key a - key b) xs)] at hs
    exact (List.pairwise_append.mp hs).2.2 y hy x hx

/-- C30: `fastestGrowing` has exactly `min(10, number of input entries with
growthRate > 0)` entries; together with some list `rest` it is a rearrangement
of the input's entries with `growthRate > 0`, and every entry of `rest` has a
growth rate at most that of every entry of `fastestGrowing`. Symmetrically,
`declining` has `min(10, number of negative entries)` entries and every
omitted negative entry has a growth rate at least that of every included one.
In particular an input entry of the right sign that is in neither position of
the list is bounded by all entries of the list. -/
theorem ranking_top_ten (growthData : List GrowthEntry) :
    ((fastestGrowingOf growthData).length
        = min 10 (growthData.filter (fun e => decide (e.growthRate > 0))).length ∧
      (∃ rest : List GrowthEntry,
        (fastestGrowingOf growthData ++ rest).Perm
          (growthData.filter (fun e => decide (e.growthRate > 0))) ∧
        ∀ x ∈ rest, ∀ y ∈ fastestGrowingOf growthData, x.growthRate ≤ y.growthRate) ∧
      (∀ e ∈ growthData, 0 < e.growthRate → e ∉ fastestGrowingOf growthData →
        ∀ y ∈ fastestGrowingOf growthData, e.growthRate ≤ y.growthRate)) ∧
    ((decliningOf growthData).length
        = min 10 (growthData.filter (fun e => decide (e.growthRate < 0))).length ∧
      (∃ rest : List GrowthEntry,
        (decliningOf growthData ++ rest).Perm
          (growthData.filter (fun e => decide (e.growthRate < 0))) ∧
        ∀ x ∈ rest, ∀ y ∈ decliningOf growthData, y.growthRate ≤ x.growthRate) ∧
      (∀ e ∈ growthData, e.growthRate < 0 → e ∉ decliningOf growthData →
        ∀ y ∈ decliningOf growthData, y.growthRate ≤ e.growthRate)) := by
  obtain ⟨hlenF, hpermF, hordF⟩ := take_ten_of_jsSort (fun e : GrowthEntry => -e.growthRate)
    (growthData.filter (fun e => decide (e.growthRate > 0)))
  obtain ⟨hlenD, hpermD, hordD⟩ := take_ten_of_jsSort (fun e : GrowthEntry => e.growthRate)
    (growthData.filter (fun e => decide (e.growthRate < 0)))
  rw [← fastestGrowingOf_eq] at hlenF hpermF hordF
  have hD : decliningOf growthData
      = (jsSort (fun a b => (fun e : GrowthEntry => e.growthRate) a
            - (fun e : GrowthEntry => e.growthRate) b)
          (growthData.filter (fun e => decide (e.growthRate < 0)))).take 10 := rfl
  rw [← hD] at hlenD hpermD hordD
  refine ⟨⟨hlenF, ⟨_, hpermF, ?_⟩, ?_⟩, ⟨hlenD, ⟨_, hpermD, ?_⟩, ?_⟩⟩
  · intro x hx y hy
    have h := hordF x hx y hy
    linarith
  · intro e he hpos hnot y hy
    have hmem : e ∈ fastestGrowingOf growthData ++ _ :=
      hpermF.mem_iff.mpr (List.mem_filter.mpr ⟨he, by simpa using hpos⟩)
    rcases List.mem_append.mp hmem with h | h
    · exact absurd h hnot
    · have h2 := hordF e h y hy
      linarith
  · intro x hx y hy
    exact hordD x hx y hy
  · intro e he hneg hnot y hy
    have hmem : e ∈ decliningOf growthData ++ _ :=
      hpermD.mem_iff.mpr (List.mem_filter.mpr ⟨he, by simpa using hneg⟩)
    rcases List.mem_append.mp hmem with h | h
    · exact absurd h hnot
    · exact hordD e h y hy

/-! ## Facts about double rounding -/

theorem roundHalfEven_error (y : ℚ) : |(roundHalfEven y : ℚ) - y| ≤ 1 / 2 := by
  have h1 := Int.floor_le y
  have h2 := Int.lt_floor_add_one y
  unfold roundHalfEven
  split_ifs with ha hb hc
  · rw [abs_le]; constructor <;> linarith
  · push_cast; rw [abs_le]; constructor <;> linarith
  · rw [abs_le]; constructor <;> linarith
  · push_cast; rw [abs_le]; constructor <;> linarith

theorem roundHalfEven_eq (y : ℚ) (m : Int) (h : |y - m| < 1 / 2) : roundHalfEven y = m := by
  rw [abs_lt] at h
  have hfl : ⌊y⌋ = m ∨ ⌊y⌋ = m - 1 := by
    have h1 : m - 1 ≤ ⌊y⌋ := by
      rw [Int.le_floor]; push_cast; linarith
    have h2 : ⌊y⌋ < m + 1 := by
      rw [Int.floor_lt]; push_cast; linarith
    omega
  unfold roundHalfEven
  rcases hfl with hf | hf
  · have hlt : y - ⌊y⌋ < 1 / 2 := by rw [hf]; linarith
    rw [if_pos hlt, hf]
  · have hgt : y - ⌊y⌋ > 1 / 2 := by rw [hf]; push_cast; linarith
    have hnlt : ¬ y - ⌊y⌋ < 1 / 2 := not_lt.mpr (le_of_lt hgt)
    rw [if_neg hnlt, if_pos hgt, hf]
    ring

theorem roundHalfEven_intCast (m : Int) : roundHalfEven (m : ℚ) = m :=
  roundHalfEven_eq _ m (by simp)

theorem log_two_eq (x : ℚ) (e : Int) (h1 : (2 : ℚ) ^ e ≤ x) (h2 : x < (2 : ℚ) ^ (e + 1)) :
    Int.log 2 x = e := by
  have hpos : 0 < x := lt_of_lt_of_le (by positivity) h1
  have ha : e ≤ Int.log 2 x := by
    exact (Int.zpow_le_iff_le_log (by norm_num) hpos).mp (by exact_mod_cast h1)
  have hb : Int.log 2 x < e + 1 := by
    exact (Int.lt_zpow_iff_log_lt (by norm_num) hpos).mp (by exact_mod_cast h2)
  omega

theorem log_bounds (x : ℚ) (hx : x ≠ 0) :
    (2 : ℚ) ^ (Int.log 2 |x| - 52) * 2 ^ 52 ≤ |x| ∧
    |x| < (2 : ℚ) ^ (Int.log 2 |x| - 52) * 2 ^ 53 := by
  have hpos : 0 < |x| := abs_pos.mpr hx
  have h1 := Int.zpow_log_le_self (by norm_num : 1 < 2) hpos
  have h2 := Int.lt_zpow_succ_log_self (by norm_num : 1 < 2) |x|
  have e1 : (2 : ℚ) ^ (Int.log 2 |x| - 52) * 2 ^ 52 = (2 : ℚ) ^ (Int.log 2 |x|) := by
    rw [← zpow_natCast (2 : ℚ) 52, ← zpow_add₀ (by norm_num : (2 : ℚ) ≠ 0)]
    congr 1
    omega
  have e2 : (2 : ℚ) ^ (Int.log 2 |x| - 52) * 2 ^ 53 = (2 : ℚ) ^ (Int.log 2 |x| + 1) := by
    rw [← zpow_natCast (2 : ℚ) 53, ← zpow_add₀ (by norm_num : (2 : ℚ) ≠ 0)]
    congr 1
    omega
  rw [e1, e2]
  exact ⟨by exact_mod_cast h1, by exact_mod_cast h2⟩

/-- Relative error of one rounding: at most `2^-53`. -/
theorem fl_error (x : ℚ) : |fl x - x| ≤ |x| / 2 ^ 53 := by
  by_cases hx : x = 0
  · simp [fl, hx]
  · obtain ⟨hlo, _⟩ := log_bounds x hx
    have hp : (0 : ℚ) < (2 : ℚ) ^ (Int.log 2 |x| - 52) := by positivity
    have herr := roundHalfEven_error (x / (2 : ℚ) ^ (Int.log 2 |x| - 52))
    have hfl : fl x - x
        = ((roundHalfEven (x / (2 : ℚ) ^ (Int.log 2 |x| - 52)) : ℚ)
            - x / (2 : ℚ) ^ (Int.log 2 |x| - 52)) * (2 : ℚ) ^ (Int.log 2 |x| - 52) := by
      simp only [fl, hx, if_false]
      field_simp
    rw [hfl, abs_mul, abs_of_pos hp]
    calc |(roundHalfEven (x / (2 : ℚ) ^ (Int.log 2 |x| - 52)) : ℚ)
            - x / (2 : ℚ) ^ (Int.log 2 |x| - 52)| * (2 : ℚ) ^ (Int.log 2 |x| - 52)
        ≤ 1 / 2 * (2 : ℚ) ^ (Int.log 2 |x| - 52) :=
          mul_le_mul_of_nonneg_right herr (le_of_lt hp)
      _ = (2 : ℚ) ^ (Int.log 2 |x| - 52) * 2 ^ 52 / 2 ^ 53 := by ring
      _ ≤ |x| / 2 ^ 53 := by
          apply div_le_div_of_nonneg_right hlo
          positivity

/-- Evaluation of `fl` at a value whose scaled mantissa is near the integer `m`. -/
theorem fl_eq_div (x : ℚ) (m : Int) (k : ℕ) (h1 : (2 : ℚ) ^ 52 ≤ |x| * 2 ^ k)
    (h2 : |x| * 2 ^ k < (2 : ℚ) ^ 53) (h3 : |x * 2 ^ k - m| < 1 / 2) :
    fl x = (m : ℚ) / 2 ^ k := by
  have hk : (0 : ℚ) < 2 ^ k := by positivity
  have hx : x ≠ 0 := by
    intro h
    rw [h] at h1
    norm_num at h1
  have hlog : Int.log 2 |x| = 52 - (k : ℤ) := by
    apply log_two_eq
    · rw [zpow_sub₀ (by norm_num : (2 : ℚ) ≠ 0), zpow_natCast]
      rw [div_le_iff₀ hk]
      exact_mod_cast h1
    · have e : (52 : ℤ) - k + 1 = 53 - k := by ring
      rw [e, zpow_sub₀ (by norm_num : (2 : ℚ) ≠ 0), zpow_natCast]
      rw [lt_div_iff₀ hk]
      exact_mod_cast h2
  have he : Int.log 2 |x| - 52 = -(k : ℤ) := by omega
  simp only [fl, hx, if_false, he, zpow_neg, zpow_natCast]
  have hy : x / ((2 : ℚ) ^ k)⁻¹ = x * 2 ^ k := by field_simp
  rw [hy, roundHalfEven_eq _ m h3]
  field_simp

/-- A value with at most 53 significant bits is its own rounding. -/
theorem fl_of_mantissa (m : Int) (j : Int) (hm : |m| < 2 ^ 53) :
    fl ((m : ℚ) * (2 : ℚ) ^ j) = (m : ℚ) * (2 : ℚ) ^ j := by
  by_cases hx : (m : ℚ) * (2 : ℚ) ^ j = 0
  · simp [fl, hx]
  · obtain ⟨hlo, _⟩ := log_bounds _ hx
    set e := Int.log 2 |(m : ℚ) * (2 : ℚ) ^ j| - 52 with he
    have hj : (0 : ℚ) < (2 : ℚ) ^ j := by positivity
    have hmq : |(m : ℚ)| < 2 ^ 53 := by exact_mod_cast hm
    have hej : e ≤ j := by
      by_contra hc
      have hlt : j + 1 ≤ e := by omega
      have hpow : (2 : ℚ) ^ (j + 1) ≤ (2 : ℚ) ^ e :=
        zpow_le_zpow_right₀ (by norm_num) hlt
      have habs : |(m : ℚ) * (2 : ℚ) ^ j| = |(m : ℚ)| * (2 : ℚ) ^ j := by
        rw [abs_mul, abs_of_pos hj]
      rw [habs] at hlo
      have h2 : (2 : ℚ) ^ (j + 1) = (2 : ℚ) ^ j * 2 := by
        rw [zpow_add₀ (by norm_num : (2 : ℚ) ≠ 0), zpow_one]
      have h3 : (2 : ℚ) ^ j * 2 * 2 ^ 52 ≤ |(m : ℚ)| * (2 : ℚ) ^ j := by
        calc (2 : ℚ) ^ j * 2 * 2 ^ 52 = (2 : ℚ) ^ (j + 1) * 2 ^ 52 := by rw [h2]
          _ ≤ (2 : ℚ) ^ e * 2 ^ 52 := by
              apply mul_le_mul_of_nonneg_right hpow
              positivity
          _ ≤ |(m : ℚ)| * (2 : ℚ) ^ j := hlo
      have h4 : (2 : ℚ) * 2 ^ 52 ≤ |(m : ℚ)| := by
        by_contra hc2
        have hc3 : |(m : ℚ)| < 2 * 2 ^ 52 := not_le.mp hc2
        have : |(m : ℚ)| * (2 : ℚ) ^ j < 2 * 2 ^ 52 * (2 : ℚ) ^ j :=
          mul_lt_mul_of_pos_right hc3 hj
        linarith
      norm_num at h4 hmq
      linarith
    obtain ⟨d, hd⟩ : ∃ d : ℕ, j = e + d := ⟨(j - e).toNat, by omega⟩
    have hy : (m : ℚ) * (2 : ℚ) ^ j / (2 : ℚ) ^ e = ((m * 2 ^ d : ℤ) : ℚ) := by
      rw [hd, zpow_add₀ (by norm_num : (2 : ℚ) ≠ 0), zpow_natCast]
      push_cast
      field_simp
      ring
    simp only [fl, hx, if_false]
    rw [← he, hy, roundHalfEven_intCast]
    rw [hd, zpow_add₀ (by norm_num : (2 : ℚ) ≠ 0), zpow_natCast]
    push_cast
    ring

theorem fl_intCast (m : Int) (hm : |m| < 2 ^ 53) : fl (m : ℚ) = m := by
  have h := fl_of_mantissa m 0 hm
  simpa using h

theorem fl_natCast (n : ℕ) (hn : n < 2 ^ 53) : fl (n : ℚ) = n := by
  have h := fl_intCast (n : ℤ) (by rw [abs_of_nonneg (by positivity)]; exact_mod_cast hn)
  simpa using h

theorem fl_half (m : Int) (hm : |m| < 2 ^ 53) : fl ((m : ℚ) / 2) = (m : ℚ) / 2 := by
  have h := fl_of_mantissa m (-1) hm
  have e : (m : ℚ) * (2 : ℚ) ^ (-1 : ℤ) = (m : ℚ) / 2 := by
    rw [zpow_neg, zpow_one]
    ring
  rw [e] at h
  exact h


theorem roundHalfEven_tie (f : Int) (hf : f % 2 = 0) :
    roundHalfEven ((f : ℚ) + 1 / 2) = f := by
  have hfloor : ⌊(f : ℚ) + 1 / 2⌋ = f := by
    rw [Int.floor_eq_iff]
    constructor <;> linarith
  unfold roundHalfEven
  rw [hfloor]
  have h1 : ¬ ((f : ℚ) + 1 / 2 - f < 1 / 2) := by
    intro h
    linarith
  have h2 : ¬ ((f : ℚ) + 1 / 2 - f > 1 / 2) := by
    intro h
    linarith
  rw [if_neg h1, if_neg h2, if_pos hf]

/-- Evaluation of `fl` at a value whose scaled mantissa is exactly half way
above the even integer `m`. -/
theorem fl_eq_div_tie (x : ℚ) (m : Int) (k : ℕ) (h1 : (2 : ℚ) ^ 52 ≤ |x| * 2 ^ k)
    (h2 : |x| * 2 ^ k < (2 : ℚ) ^ 53) (h3 : x * 2 ^ k = (m : ℚ) + 1 / 2) (hm : m % 2 = 0) :
    fl x = (m : ℚ) / 2 ^ k := by
  have hk : (0 : ℚ) < 2 ^ k := by positivity
  have hx : x ≠ 0 := by
    intro h
    rw [h] at h1
    norm_num at h1
  have hlog : Int.log 2 |x| = 52 - (k : ℤ) := by
    apply log_two_eq
    · rw [zpow_sub₀ (by norm_num : (2 : ℚ) ≠ 0), zpow_natCast]
      rw [div_le_iff₀ hk]
      exact_mod_cast h1
    · have e : (52 : ℤ) - k + 1 = 53 - k := by ring
      rw [e, zpow_sub₀ (by norm_num : (2 : ℚ) ≠ 0), zpow_natCast]
      rw [lt_div_iff₀ hk]
      exact_mod_cast h2
  have he : Int.log 2 |x| - 52 = -(k : ℤ) := by omega
  simp only [fl, hx, if_false, he, zpow_neg, zpow_natCast]
  have hy : x / ((2 : ℚ) ^ k)⁻¹ = x * 2 ^ k := by field_simp
  rw [hy, h3, roundHalfEven_tie m hm]
  field_simp

/-- A value that equals a natural number below `2^53` is its own rounding. -/
theorem fl_eq_nat (q : ℚ) (n : ℕ) (hq : q = (n : ℚ)) (hn : n < 2 ^ 53) : fl q = (n : ℚ) := by
  rw [hq]
  exact fl_natCast n hn

/-- One more rounding after a relative error `c`: the relative error becomes at
most `c + (1 + c) / 2^53`. -/
theorem fl_rel_step (x' X c : ℚ) (h : |x' - X| ≤ c * |X|) :
    |fl x' - X| ≤ (c + (1 + c) / 2 ^ 53) * |X| := by
  have h1 := fl_error x'
  have h2 : |x'| ≤ |X| + c * |X| := by
    calc |x'| = |(x' - X) + X| := by ring_nf
      _ ≤ |x' - X| + |X| := abs_add _ _
      _ ≤ |X| + c * |X| := by linarith
  calc |fl x' - X| = |(fl x' - x') + (x' - X)| := by ring_nf
    _ ≤ |fl x' - x'| + |x' - X| := abs_add _ _
    _ ≤ |x'| / 2 ^ 53 + c * |X| := by linarith
    _ ≤ (|X| + c * |X|) / 2 ^ 53 + c * |X| := by
        have := div_le_div_of_nonneg_right h2 (by positivity : (0 : ℚ) ≤ 2 ^ 53)
        linarith
    _ = (c + (1 + c) / 2 ^ 53) * |X| := by ring

/-- A relative error is kept by multiplying both values by the same factor. -/
theorem rel_mul (x' X c a : ℚ) (h : |x' - X| ≤ c * |X|) :
    |x' * a - X * a| ≤ c * |X * a| := by
  have e : x' * a - X * a = (x' - X) * a := by ring
  rw [e, abs_mul, abs_mul]
  calc |x' - X| * |a| ≤ c * |X| * |a| := mul_le_mul_of_nonneg_right h (abs_nonneg a)
    _ = c * (|X| * |a|) := by ring

/-- A relative error is kept by dividing both values by the same divisor. -/
theorem rel_div (x' X c a : ℚ) (h : |x' - X| ≤ c * |X|) :
    |x' / a - X / a| ≤ c * |X / a| := by
  have h2 := rel_mul x' X c a⁻¹ h
  simpa [div_eq_mul_inv] using h2

/-- An integer nearest to a value near `G` is near `G`. -/
theorem jsRound_near (v G eps : ℚ) (h : |v - G| ≤ eps) :
    |((jsRound v : Int) : ℚ) - G| ≤ 1 / 2 + eps := by
  have h1 : ((jsRound v : Int) : ℚ) ≤ v + 1 / 2 := (jsRound_le_iff v (jsRound v)).mp (le_refl _)
  have h2 : v + 1 / 2 < ((jsRound v + 1 : Int) : ℚ) :=
    (jsRound_lt_iff v (jsRound v + 1)).mp (by omega)
  push_cast at h2
  rw [abs_le] at h ⊢
  constructor <;> linarith

/-- `round2D` returns the double nearest to `k / 100` with `k` the integer
nearest to the double product. -/
theorem round2D_eq (x : ℚ) : round2D x = fl ((jsRound (fmul x 100) : ℚ) / 100) := rfl

/-! ## The growth rate on doubles -/

theorem fl_zero : fl 0 = 0 := by simp [fl]

theorem round2D_zero : round2D 0 = 0 := by
  have hr : jsRound 0 = 0 := by
    rw [jsRound_eq_iff]
    constructor <;> norm_num
  simp only [round2D, fmul, fdiv, zero_mul, fl_zero, hr, Int.cast_zero, zero_div]

/-- Four roundings in a row keep the relative error below `2^-50`. -/
theorem growth_chain_error (d f : ℚ) :
    |fmul (fmul (fdiv (fsub (d + f) f) f) 100) 100 - d / f * 100 * 100|
      ≤ |d / f * 100 * 100| / 2 ^ 50 := by
  have h0 : |(d + f - f) - d| ≤ 0 * |d| := by simp
  have h1 := fl_rel_step (d + f - f) d 0 h0
  have h2 := rel_div _ _ _ f h1
  have h3 := fl_rel_step _ _ _ h2
  have h4 := rel_mul _ _ _ 100 h3
  have h5 := fl_rel_step _ _ _ h4
  have h6 := rel_mul _ _ _ 100 h5
  have h7 := fl_rel_step _ _ _ h6
  have hc : ((0 + (1 + 0) / 2 ^ 53 + (1 + (0 + (1 + 0) / 2 ^ 53)) / 2 ^ 53
      + (1 + (0 + (1 + 0) / 2 ^ 53 + (1 + (0 + (1 + 0) / 2 ^ 53)) / 2 ^ 53)) / 2 ^ 53
      + (1 + (0 + (1 + 0) / 2 ^ 53 + (1 + (0 + (1 + 0) / 2 ^ 53)) / 2 ^ 53
        + (1 + (0 + (1 + 0) / 2 ^ 53 + (1 + (0 + (1 + 0) / 2 ^ 53)) / 2 ^ 53)) / 2 ^ 53))
        / 2 ^ 53 : ℚ)) ≤ 1 / 2 ^ 50 := by norm_num
  have h8 := le_trans h7 (mul_le_mul_of_nonneg_right hc (abs_nonneg (d / f * 100 * 100)))
  have e : (1 : ℚ) / 2 ^ 50 * |d / f * 100 * 100| = |d / f * 100 * 100| / 2 ^ 50 := by ring
  rw [e] at h8
  exact h8

theorem growthRateDouble_of_first_last (ts : List Observation) (first last : Observation)
    (hlen : 2 ≤ ts.length) (hfirst : ts.head? = some first) (hlast : ts.getLast? = some last) :
    growthRateDouble ts =
      round2D (if (first.mentions : ℚ) > 0
        then fmul (fdiv (fsub (last.mentions : ℚ) first.mentions) first.mentions) 100 else 0) := by
  have hguard : ¬ ts.length < 2 := by omega
  simp only [growthRateDouble, hguard, if_false, rawGrowthRateD,
    mentionsOf_getD_first ts first hfirst, mentionsOf_getD_last ts last hlast]

/-- Counterexample to C1 as stated: for the window with mentions 160, 183 the
exact percentage is 14.375, whose rounding `Math.round(1437.5) / 100` is 14.38;
the doubles of the code give 1437.4999999999998 before `Math.round`, and the
returned `growthRate` is the double 14.37. -/
theorem growthRate_tie_counterexample :
    growthRateDouble [obs 0 160, obs 1 183] = 8089590830664253 / 2 ^ 49 ∧
    growthRateDouble [obs 0 160, obs 1 183] = fl (1437 / 100) ∧
    (jsRound ((((183 : ℚ) - 160) / 160) * 100 * 100) : ℚ) / 100 = 1438 / 100 ∧
    growthRateDouble [obs 0 160, obs 1 183] < 1438 / 100 - 1 / 125 ∧
    growthRateDouble [obs 0 160, obs 1 183] ≠ fl (1438 / 100) := by
  have hsub : fsub ((183 : ℕ) : ℚ) ((160 : ℕ) : ℚ) = 23 := by
    have h := fl_eq_nat (((183 : ℕ) : ℚ) - ((160 : ℕ) : ℚ)) 23 (by norm_num) (by norm_num)
    simpa [fsub] using h
  have hdiv : fdiv 23 ((160 : ℕ) : ℚ) = 5179139571476070 / 2 ^ 55 := by
    have h := fl_eq_div (23 / ((160 : ℕ) : ℚ)) 5179139571476070 55
      (by norm_num [abs_of_pos]) (by norm_num [abs_of_pos]) (by norm_num [abs_lt])
    rw [fdiv, h]
    norm_num
  have hmul : fmul (5179139571476070 / 2 ^ 55) 100 = 8092405580431359 / 2 ^ 49 := by
    have h := fl_eq_div ((5179139571476070 : ℚ) / 2 ^ 55 * 100) 8092405580431359 49
      (by norm_num [abs_of_pos]) (by norm_num [abs_of_pos]) (by norm_num [abs_lt])
    rw [fmul, h]
    norm_num
  have hmul2 : fmul (8092405580431359 / 2 ^ 49) 100 = 6322191859711999 / 2 ^ 42 := by
    have h := fl_eq_div ((8092405580431359 : ℚ) / 2 ^ 49 * 100) 6322191859711999 42
      (by norm_num [abs_of_pos]) (by norm_num [abs_of_pos]) (by norm_num [abs_lt])
    rw [fmul, h]
    norm_num
  have hround : jsRound ((6322191859711999 : ℚ) / 2 ^ 42) = 1437 := by
    rw [jsRound_eq_iff]
    constructor <;> norm_num
  have hres : fl (1437 / 100) = 8089590830664253 / 2 ^ 49 := by
    have h := fl_eq_div ((1437 : ℚ) / 100) 8089590830664253 49
      (by norm_num [abs_of_pos]) (by norm_num [abs_of_pos]) (by norm_num [abs_lt])
    rw [h]
    norm_num
  have hval : growthRateDouble [obs 0 160, obs 1 183] = 8089590830664253 / 2 ^ 49 := by
    rw [growthRateDouble_of_first_last [obs 0 160, obs 1 183] (obs 0 160) (obs 1 183)
      (by decide) rfl rfl]
    have hpos : (((obs 0 160).mentions : ℕ) : ℚ) > 0 := by norm_num [obs]
    rw [if_pos hpos]
    simp only [obs]
    rw [hsub, hdiv, hmul, round2D_eq, hmul2, hround]
    rw [← hres]
    norm_num
  have hclaim : (jsRound ((((183 : ℚ) - 160) / 160) * 100 * 100) : ℚ) / 100 = 1438 / 100 := by
    have hr : jsRound ((((183 : ℚ) - 160) / 160) * 100 * 100) = 1438 := by
      rw [jsRound_eq_iff]
      constructor <;> norm_num
    rw [hr]
    norm_num
  have hlt : growthRateDouble [obs 0 160, obs 1 183] < 1438 / 100 - 1 / 125 := by
    rw [hval]
    norm_num
  refine ⟨hval, by rw [hval, hres], hclaim, hlt, ?_⟩
  intro heq
  have herr := fl_error (1438 / 100)
  rw [← heq, abs_le] at herr
  have h2 : |(1438 : ℚ) / 100| = 1438 / 100 := abs_of_pos (by norm_num)
  rw [h2] at herr
  have h3 : (1438 : ℚ) / 100 / 2 ^ 53 < 1 / 1000 := by norm_num
  linarith [herr.1]

/-- C1 (amended): for a window of at least two observations with first element
`first` and last element `last`, if `first.mentions > 0` the returned
`growthRate` is the double nearest to `k / 100` for an integer `k` within
`1/2 + |G| / 2^50` of `G = ((last.mentions - first.mentions) / first.mentions)
* 100 * 100`, that is the percentage rounded to two decimals with a value on
(or within `|G| / 2^50` of) a tie going to either side; if `first.mentions = 0`
it is `0`. -/
theorem growthRate_rounded_double (ts : List Observation) (first last : Observation)
    (hlen : 2 ≤ ts.length) (hfirst : ts.head? = some first) (hlast : ts.getLast? = some last) :
    (0 < first.mentions →
      ∃ k : ℤ, growthRateDouble ts = fl ((k : ℚ) / 100) ∧
        |(k : ℚ) - (((last.mentions : ℚ) - first.mentions) / first.mentions) * 100 * 100|
          ≤ 1 / 2 + |(((last.mentions : ℚ) - first.mentions) / first.mentions) * 100 * 100|
              / 2 ^ 50) ∧
    (first.mentions = 0 → growthRateDouble ts = 0) := by
  rw [growthRateDouble_of_first_last ts first last hlen hfirst hlast]
  constructor
  · intro hpos
    have hq : (first.mentions : ℚ) > 0 := by exact_mod_cast hpos
    rw [if_pos hq, round2D_eq]
    refine ⟨_, rfl, ?_⟩
    apply jsRound_near
    have h := growth_chain_error ((last.mentions : ℚ) - first.mentions) first.mentions
    have e : (last.mentions : ℚ) - first.mentions + first.mentions = last.mentions := by ring
    rw [e] at h
    exact h
  · intro hzero
    have hq : ¬ (first.mentions : ℚ) > 0 := by
      rw [hzero]
      norm_num
    rw [if_neg hq, round2D_zero]

/-- Witness of C1 on the window with mentions 100, 150, 90. -/
theorem growthRate_rounded_double_witness :
    ∃ k : ℤ, growthRateDouble [obs 0 100, obs 1 150, obs 2 90] = fl ((k : ℚ) / 100) ∧
      |(k : ℚ) - ((((obs 2 90).mentions : ℚ) - (obs 0 100).mentions)
          / (obs 0 100).mentions) * 100 * 100|
        ≤ 1 / 2 + |((((obs 2 90).mentions : ℚ) - (obs 0 100).mentions)
            / (obs 0 100).mentions) * 100 * 100| / 2 ^ 50 :=
  (growthRate_rounded_double [obs 0 100, obs 1 150, obs 2 90] (obs 0 100) (obs 2 90)
    (by decide) rfl rfl).1 (by decide)

/-! ## The average on doubles -/

theorem foldl_fadd_exact (l : List ℕ) (acc : ℕ) (h : acc + l.sum < 2 ^ 53) :
    (List.map (fun n : ℕ => (n : ℚ)) l).foldl (fun sum val => fadd sum val) (acc : ℚ)
      = ((acc + l.sum : ℕ) : ℚ) := by
  induction l generalizing acc with
  | nil => simp
  | cons a t ih =>
    rw [List.sum_cons] at h
    rw [List.map_cons, List.foldl_cons]
    have hstep : fadd (acc : ℚ) (a : ℚ) = ((acc + a : ℕ) : ℚ) :=
      fl_eq_nat _ (acc + a) (by push_cast; ring) (by omega)
    rw [hstep, ih (acc + a) (by omega), List.sum_cons]
    congr 1
    omega

/-- The double sum of the mention counts is their sum when that is below
`2^53`. -/
theorem sumReduceD_exact (ts : List Observation)
    (h : (ts.map (fun o => o.mentions)).sum < 2 ^ 53) :
    sumReduceD (mentionsOf ts) = (((ts.map (fun o => o.mentions)).sum : ℕ) : ℚ) := by
  have hm : mentionsOf ts
      = List.map (fun n : ℕ => (n : ℚ)) (ts.map (fun o => o.mentions)) := by
    rw [List.map_map]
    rfl
  have h0 := foldl_fadd_exact (ts.map (fun o => o.mentions)) 0 (by omega)
  rw [sumReduceD, hm]
  rw [Nat.cast_zero] at h0
  rw [h0, Nat.zero_add]

/-- Two roundings in a row keep the relative error below `2^-51`. -/
theorem mean_chain_error (S n : ℚ) :
    |fmul (fdiv S n) 100 - S / n * 100| ≤ |S / n * 100| / 2 ^ 51 := by
  have h0 : |S / n - S / n| ≤ 0 * |S / n| := by simp
  have h1 := fl_rel_step (S / n) (S / n) 0 h0
  have h2 := rel_mul _ _ _ 100 h1
  have h3 := fl_rel_step _ _ _ h2
  have hc : ((0 + (1 + 0) / 2 ^ 53 + (1 + (0 + (1 + 0) / 2 ^ 53)) / 2 ^ 53 : ℚ))
      ≤ 1 / 2 ^ 51 := by norm_num
  have h4 := le_trans h3 (mul_le_mul_of_nonneg_right hc (abs_nonneg (S / n * 100)))
  have e : (1 : ℚ) / 2 ^ 51 * |S / n * 100| = |S / n * 100| / 2 ^ 51 := by ring
  rw [e] at h4
  exact h4

theorem sparseWindow_sum : (sparseWindow.map (fun o => o.mentions)).sum = 23 := by
  simp [sparseWindow, obs, List.map_append, List.map_replicate, List.sum_replicate]

theorem sparseWindow_length : sparseWindow.length = 40 := by
  simp [sparseWindow]

/-- Counterexample to C18 as stated: for the window of 40 observations with
mentions 1 (23 times) and 0 (17 times) the mean is 0.575, whose rounding
`Math.round(57.5) / 100` is 0.58; the doubles of the code give
57.49999999999999 before `Math.round`, and the returned `average` is the
double 0.57. -/
theorem average_tie_counterexample :
    sparseWindow.length = 40 ∧
    (sparseWindow.map (fun o => o.mentions)).sum = 23 ∧
    averageDouble sparseWindow = fl (57 / 100) ∧
    round2 ((23 : ℚ) / 40) = 58 / 100 ∧
    averageDouble sparseWindow < 58 / 100 - 1 / 125 := by
  have hmean : fdiv ((23 : ℕ) : ℚ) ((40 : ℕ) : ℚ) = 5179139571476070 / 2 ^ 53 := by
    have h := fl_eq_div (((23 : ℕ) : ℚ) / ((40 : ℕ) : ℚ)) 5179139571476070 53
      (by norm_num [abs_of_pos]) (by norm_num [abs_of_pos]) (by norm_num [abs_lt])
    rw [fdiv, h]
    norm_num
  have hmul : fmul (5179139571476070 / 2 ^ 53) 100 = 8092405580431359 / 2 ^ 47 := by
    have h := fl_eq_div ((5179139571476070 : ℚ) / 2 ^ 53 * 100) 8092405580431359 47
      (by norm_num [abs_of_pos]) (by norm_num [abs_of_pos]) (by norm_num [abs_lt])
    rw [fmul, h]
    norm_num
  have hround : jsRound ((8092405580431359 : ℚ) / 2 ^ 47) = 57 := by
    rw [jsRound_eq_iff]
    constructor <;> norm_num
  have hres : fl (57 / 100) = 5134103575202365 / 2 ^ 53 := by
    have h := fl_eq_div ((57 : ℚ) / 100) 5134103575202365 53
      (by norm_num [abs_of_pos]) (by norm_num [abs_of_pos]) (by norm_num [abs_lt])
    rw [h]
    norm_num
  have hval : averageDouble sparseWindow = fl (57 / 100) := by
    have hguard : ¬ sparseWindow.length < 2 := by rw [sparseWindow_length]; decide
    have hsum := sumReduceD_exact sparseWindow (by rw [sparseWindow_sum]; norm_num)
    rw [sparseWindow_sum] at hsum
    simp only [averageDouble, hguard, if_false, meanD, hsum, mentionsOf_length,
      sparseWindow_length]
    rw [hmean, round2D_eq, hmul, hround]
    norm_num
  have hclaim : round2 ((23 : ℚ) / 40) = 58 / 100 := by
    have hr : jsRound ((23 : ℚ) / 40 * 100) = 58 := by
      rw [jsRound_eq_iff]
      constructor <;> norm_num
    rw [round2, hr]
    norm_num
  refine ⟨sparseWindow_length, sparseWindow_sum, hval, hclaim, ?_⟩
  rw [hval, hres]
  norm_num

/-- C18 (amended): for a window of at least two observations (total mentions
below `2^53`) the returned `peak` is the mention count of some observation of
the window and no observation has more; the returned `average` is the double
nearest to `k / 100` for an integer `k` within `1/2 + |V| / 2^51` of
`V = mean * 100`, that is the mean rounded to two decimals with a value on (or
within `|V| / 2^51` of) a tie going to either side. -/
theorem peak_and_average_double (sqrt : ℚ → ℚ) (ts : List Observation)
    (hlen : 2 ≤ ts.length) (hsum : (ts.map (fun o => o.mentions)).sum < 2 ^ 53) :
    (∃ o ∈ ts, (o.mentions : ℚ) = (calculateTrendMetrics sqrt ts).peak) ∧
    (∀ o ∈ ts, (o.mentions : ℚ) ≤ (calculateTrendMetrics sqrt ts).peak) ∧
    (∃ k : ℤ, averageDouble ts = fl ((k : ℚ) / 100) ∧
      |(k : ℚ) - (((ts.map (fun o => o.mentions)).sum : ℕ) : ℚ) / (ts.length : ℚ) * 100|
        ≤ 1 / 2 + |(((ts.map (fun o => o.mentions)).sum : ℕ) : ℚ) / (ts.length : ℚ) * 100|
            / 2 ^ 51) := by
  have hguard : ¬ ts.length < 2 := by omega
  have hpeak : (calculateTrendMetrics sqrt ts).peak = mathMax (mentionsOf ts) := by
    simp only [calculateTrendMetrics, hguard, if_false]
  have hne : mentionsOf ts ≠ [] := by
    intro h
    have h0 : ts = [] := List.map_eq_nil_iff.mp h
    rw [h0] at hlen
    exact absurd hlen (by decide)
  obtain ⟨hmem, hle⟩ := mathMax_bounds (mentionsOf ts) hne
  refine ⟨?_, ?_, ?_⟩
  · rw [hpeak]
    obtain ⟨o, ho, heq⟩ := List.mem_map.mp hmem
    exact ⟨o, ho, heq⟩
  · intro o ho
    rw [hpeak]
    exact hle _ (List.mem_map.mpr ⟨o, ho, rfl⟩)
  · simp only [averageDouble, hguard, if_false, meanD, sumReduceD_exact ts hsum,
      mentionsOf_length, round2D_eq]
    refine ⟨_, rfl, ?_⟩
    apply jsRound_near
    exact mean_chain_error _ _

/-- Witness of C18 on the window with mentions 100, 150, 90. -/
theorem peak_and_average_double_witness :
    (∃ o ∈ [obs 0 100, obs 1 150, obs 2 90],
      (o.mentions : ℚ) = (calculateTrendMetrics sqrtFloor [obs 0 100, obs 1 150, obs 2 90]).peak) ∧
    (∀ o ∈ [obs 0 100, obs 1 150, obs 2 90],
      (o.mentions : ℚ) ≤ (calculateTrendMetrics sqrtFloor [obs 0 100, obs 1 150, obs 2 90]).peak) ∧
    (∃ k : ℤ, averageDouble [obs 0 100, obs 1 150, obs 2 90] = fl ((k : ℚ) / 100) ∧
      |(k : ℚ) - ((([obs 0 100, obs 1 150, obs 2 90].map (fun o => o.mentions)).sum : ℕ) : ℚ)
          / ([obs 0 100, obs 1 150, obs 2 90].length : ℚ) * 100|
        ≤ 1 / 2 + |((([obs 0 100, obs 1 150, obs 2 90].map (fun o => o.mentions)).sum : ℕ) : ℚ)
            / ([obs 0 100, obs 1 150, obs 2 90].length : ℚ) * 100| / 2 ^ 51) :=
  peak_and_average_double sqrtFloor [obs 0 100, obs 1 150, obs 2 90] (by decide)
    (by norm_num [obs])

end HashtagAnalyzer
